import Mathlib

/-!
# CyberChat core — verification development

A shallow embedding, in Lean 4, of the parts of the CyberChat server that
the specification's checked claims are about:

* the discovery scan-interval adaptation (`discovery.Service.discover`);
* the peer manager's in-memory active set (`peers.Manager`);
* the discovery service's store-backed peer lookup (`discovery.Service.GetPeer`)
  and the persistence adapter's `SavePeer` / `GetMessages` / `MessageExists`;
* the websocket session admission checks (`websocket.verifyLocalhost`,
  `upgrader.CheckOrigin`, `Manager.HandleConnection`);
* the message pipeline (`messagehandler.Handler.ProcessMessage`,
  `ForwardMessageToPeer`, `handleDeliveryFailure`, `HandleMessage`);
* the message encryption layer (`messages.Message.Encrypt`,
  `messages.EncryptedMessage.Decrypt`), including RSA-OAEP with the message
  id as label, MGF1 masking and base64 framing.

Go byte slices are modelled as `List Nat` with every element `< 256`;
instants and durations are `Nat` values (nanoseconds for the scan
intervals, milliseconds elsewhere, as noted at each definition).  Every
definition is written from the Go source; deviations forced by the
embedding (e.g. the random OAEP seed becoming an explicit argument) are
noted in the doc comment of the definition concerned.
-/

namespace CyberChat

/-! ## Discovery scan-interval adaptation (`discovery.Service.discover`)

The scan loop keeps `currentInterval` (a `time.Duration`, i.e. an integer
number of nanoseconds), a `consecutiveUnchanged` counter and the peer
count observed by the previous scan.  The growth step in Go is
`time.Duration(float64(currentInterval) * 1.25)`: for every reachable
value (`≤ 15e9 < 2^53`) the `float64` conversion is exact and
`x * 1.25 = 5x/4` is computed exactly, so the conversion back to an
integer duration truncates `5x/4`, which is `5 * x / 4` in `Nat`
arithmetic. -/

/-- `baseInterval = 2 * time.Second`, in nanoseconds. -/
def baseIntervalNs : Nat := 2000000000

/-- `maxInterval = 15 * time.Second`, in nanoseconds. -/
def maxIntervalNs : Nat := 15000000000

/-- `maxConsecutiveUnchanged = 3`. -/
def maxConsecutiveUnchanged : Nat := 3

/-- The scan loop's adaptive-interval state (`discovery.Service.discover`
locals `currentInterval`, `consecutiveUnchanged`, `lastPeerCount`). -/
structure ScanState where
  currentInterval : Nat
  consecutiveUnchanged : Nat
  lastPeerCount : Nat
deriving DecidableEq, Repr

/-- The state the loop starts with: `currentInterval := baseInterval`,
`lastPeerCount := 0`, `consecutiveUnchanged := 0`. -/
def initScanState : ScanState :=
  { currentInterval := baseIntervalNs, consecutiveUnchanged := 0, lastPeerCount := 0 }

/-- One pass of the interval-adaptation code at the end of a scan
(`discovery.Service.discover`, the block after `SCAN_DONE`):
`foundPeers` is the number of peers first seen in this scan and
`currentPeerCount` the size of the discovery peer map after it. -/
def scanStep (st : ScanState) (foundPeers currentPeerCount : Nat) : ScanState :=
  if foundPeers = 0 ∧ currentPeerCount = st.lastPeerCount then
    let c := st.consecutiveUnchanged + 1
    if maxConsecutiveUnchanged ≤ c then
      let grown := 5 * st.currentInterval / 4
      { currentInterval := if maxIntervalNs < grown then maxIntervalNs else grown,
        consecutiveUnchanged := 0,
        lastPeerCount := currentPeerCount }
    else
      { currentInterval := st.currentInterval,
        consecutiveUnchanged := c,
        lastPeerCount := currentPeerCount }
  else
    { currentInterval := baseIntervalNs,
      consecutiveUnchanged := 0,
      lastPeerCount := currentPeerCount }

/-! ## Persistence adapter: peers table (`db.SavePeer`, `db.GetPeer`) -/

/-- A row of the `peers` table (`db.Peer`; `trust_level` and `group_name`
are never consulted by the claims and are omitted).  `publicKey = []`
models both a NULL and an empty `public_key` column (Go stores a nil
slice as the empty string).  `lastSeen` is in milliseconds. -/
structure DBPeer where
  guid : String
  username : String
  publicKey : List Nat
  ipAddress : String
  port : Nat
  lastSeen : Nat
deriving DecidableEq, Repr

/-- `db.GetPeer`: look a row up by GUID. -/
def dbGetPeer (store : List DBPeer) (guid : String) : Option DBPeer :=
  store.find? (fun r => r.guid = guid)

/-- `db.DeletePeer`: remove the row with the given GUID. -/
def dbDeletePeer (store : List DBPeer) (guid : String) : List DBPeer :=
  store.filter (fun r => ¬ r.guid = guid)

/-- The row written by `db.SavePeer`'s upsert for a fresh GUID: the
passed name, defaulted to `"Peer-" ++ guid[:8]` when empty, and the
passed key (nil becomes the empty string). -/
def savePeerInsertRow (now : Nat) (guid ip : String) (port : Nat)
    (publicKey : Option (List Nat)) (name : String) : DBPeer :=
  { guid := guid,
    username := if name = "" then "Peer-" ++ (guid.take 8) else name,
    publicKey := publicKey.getD [],
    ipAddress := ip,
    port := port,
    lastSeen := now }

/-- The row `db.SavePeer`'s `ON CONFLICT` update leaves behind: ip, port
and `last_seen` always overwritten; `username` overwritten iff the
excluded value is non-empty (it always is, because an empty `name`
argument was already replaced by the default); `public_key` overwritten
iff the excluded value is non-empty. -/
def savePeerUpdateRow (existing : DBPeer) (now : Nat) (ip : String) (port : Nat)
    (publicKey : Option (List Nat)) (name : String) : DBPeer :=
  let name2 := if name = "" then "Peer-" ++ (existing.guid.take 8) else name
  let pkBytes := publicKey.getD []
  { guid := existing.guid,
    username := if ¬ name2 = "" then name2 else existing.username,
    publicKey := if pkBytes.length > 0 then pkBytes else existing.publicKey,
    ipAddress := ip,
    port := port,
    lastSeen := now }

/-- `db.SavePeer`'s early no-change comparison: ip, port and username
equal to what was passed (the name as passed, before any defaulting),
and the key matching — a nil key matches an empty stored key, a non-nil
key must equal the stored bytes. -/
def savePeerNoChange (existing : DBPeer) (ip : String) (port : Nat)
    (publicKey : Option (List Nat)) (name : String) : Prop :=
  existing.ipAddress = ip ∧ existing.port = port ∧ existing.username = name ∧
    ((publicKey = none ∧ existing.publicKey = []) ∨
      (∃ pk, publicKey = some pk ∧ pk = existing.publicKey))

instance (existing : DBPeer) (ip : String) (port : Nat)
    (publicKey : Option (List Nat)) (name : String) :
    Decidable (savePeerNoChange existing ip port publicKey name) := by
  have : Decidable (∃ pk, publicKey = some pk ∧ pk = existing.publicKey) :=
    match publicKey with
    | none => isFalse (by rintro ⟨pk, h, _⟩; cases h)
    | some pk =>
      if h : pk = existing.publicKey then isTrue ⟨pk, rfl, h⟩
      else isFalse (by rintro ⟨pk2, h2, h3⟩; cases h2; exact h h3)
  unfold savePeerNoChange
  exact inferInstance

/-- `db.SavePeer guid ip port publicKey name`: first the early no-change
check (`GetPeer` then `savePeerNoChange`), then the
`INSERT ... ON CONFLICT(guid) DO UPDATE` with `now` as the new
`last_seen`.  `publicKey = none` models a nil slice. -/
def savePeer (store : List DBPeer) (now : Nat) (guid ip : String) (port : Nat)
    (publicKey : Option (List Nat)) (name : String) : List DBPeer :=
  match dbGetPeer store guid with
  | some existing =>
    if savePeerNoChange existing ip port publicKey name then
      store
    else
      store.map (fun r =>
        if r.guid = guid then savePeerUpdateRow r now ip port publicKey name else r)
  | none => store ++ [savePeerInsertRow now guid ip port publicKey name]

/-! ## Persistence adapter: messages table (`db.SaveMessage`,
`db.GetMessages`, `db.MessageExists`) -/

/-- A row of the `messages` table: the `id INTEGER PRIMARY KEY`
surrogate (`rowid`), the `message_id TEXT NOT NULL UNIQUE` column
holding the message's UUID (as the byte list of the Go string, see
`Message`), the remaining columns `db.GetMessages` reads back
(`sender_guid, receiver_guid, content, type, scope, created_at`), and
the `source_ip` column `SaveMessage` writes; `created_at` in
milliseconds. -/
structure StoredMessage where
  rowid : Nat
  messageId : List Nat
  senderGUID : String
  receiverGUID : String
  content : List Nat
  ty : String
  scope : String
  createdAt : Nat
  sourceIP : String
deriving DecidableEq, Repr

/-- SQLite's INTEGER-affinity conversion of a bound TEXT value, as it
applies when the `id INTEGER PRIMARY KEY` column is compared with a
string parameter: a plain decimal numeral converts to that number, any
other text keeps the TEXT storage class and compares unequal to every
integer. -/
def textAsNat (s : List Nat) : Option Nat :=
  if s ≠ [] ∧ s.all (fun c => 48 ≤ c ∧ c ≤ 57) then
    some (s.foldl (fun a c => a * 10 + (c - 48)) 0)
  else none

/-- `db.MessageExists messageID`: `SELECT COUNT(*) FROM messages WHERE
id = ?` then `count > 0`.  The bound parameter is the message's UUID
string, but the `id` column is the INTEGER PRIMARY KEY surrogate — not
`message_id` — so a row matches only when the text converts to that
row's integer key; a UUID never does. -/
def dbMessageExists (store : List StoredMessage) (id : List Nat) : Bool :=
  match textAsNat id with
  | some k => store.any (fun r => r.rowid = k)
  | none => false

/-- `db.GetMessages guid since limit`: rows whose receiver or sender is
`guid` or whose scope is `broadcast`, with `created_at > since`, newest
first, at most `limit` rows (`ORDER BY created_at DESC LIMIT ?`). -/
def dbGetMessages (store : List StoredMessage) (guid : String) (since : Nat)
    (lim : Nat) : List StoredMessage :=
  (((store.filter (fun m =>
      m.receiverGUID = guid ∨ m.senderGUID = guid ∨ m.scope = "broadcast")).filter
      (fun m => since < m.createdAt)).mergeSort
      (fun a b => b.createdAt ≤ a.createdAt)).take lim

/-! ## Client API: `GET /api/v1/client/message`
(`clientapi.Handlers.HandleGetMessages`) -/

/-- The handler's view of the `since` query parameter: absent, present
but not RFC3339 (a parse error), or parsed to an instant. -/
inductive SinceParam where
  | absent
  | invalid
  | valid (t : Nat)
deriving DecidableEq, Repr

/-- A request to `GET /api/v1/client/message` as the handler consumes
it: the outcome of `verifyClient` (the `X-Client-API-Key` check), the
`since` parameter, and the `limit` query parameter, which the handler
never reads. -/
structure GetMessagesRequest where
  clientKeyValid : Bool
  sinceParam : SinceParam
  limitParam : Option Nat
deriving DecidableEq, Repr

/-- One day in milliseconds (the default `since` is `now − 24h`). -/
def dayMs : Nat := 86400000

/-- `clientapi.Handlers.HandleGetMessages`: 401 when the client key check
fails, 400 when `since` does not parse; otherwise the rows of
`db.GetMessages(guid, since, 100)` — the limit is the literal `100`,
whatever `limit` parameter the request carried. -/
def handleGetMessages (now : Nat) (store : List StoredMessage) (guid : String)
    (r : GetMessagesRequest) : Except Nat (List StoredMessage) :=
  if ¬ r.clientKeyValid then .error 401
  else
    match r.sinceParam with
    | .invalid => .error 400
    | .absent => .ok (dbGetMessages store guid (now - dayMs) 100)
    | .valid t => .ok (dbGetMessages store guid t 100)

/-! ## Peer Manager (`peers.Manager`)

The manager holds `peers : map[string]Peer` (modelled as a list with at
most one entry per GUID; `GetPeers` returns the values).  All instants
are milliseconds; `activePeerTimeout = 10 * time.Minute`. -/

/-- `activePeerTimeout = 10 * time.Minute`, in milliseconds (shared by
`peers.Manager` and `discovery.Service`). -/
def activeTimeoutMs : Nat := 600000

/-- `peers.Peer`: a peer as the manager holds it. -/
structure MPeer where
  guid : String
  port : Nat
  name : String
  ipAddress : String
  lastSeen : Nat
deriving DecidableEq, Repr

/-- `peers.Manager.loadActivePeers` (run by `peers.New`): populate the
map from the store's rows with `last_seen > now − activePeerTimeout`
(`db.GetPeersLastSeenAfter`). -/
def mgrLoadActivePeers (dbPeers : List DBPeer) (now : Nat) : List MPeer :=
  (dbPeers.filter (fun p => now - activeTimeoutMs < p.lastSeen)).map
    (fun p => { guid := p.guid, port := p.port, name := p.username,
                ipAddress := p.ipAddress, lastSeen := p.lastSeen })

/-- `peers.Manager.HandleUpdate`'s map write: `peer.LastSeen = now` then
`m.peers[peer.GUID] = peer` (the database write and change callback it
also performs do not touch the map). -/
def mgrHandleUpdate (peers : List MPeer) (now : Nat) (p : MPeer) : List MPeer :=
  { p with lastSeen := now } :: peers.filter (fun q => ¬ q.guid = p.guid)

/-- `peers.Manager.GetPeers`: a snapshot of every entry of the map —
the source iterates the whole map with no filter on `LastSeen`. -/
def mgrGetPeers (peers : List MPeer) : List MPeer := peers

/-- `peers.Manager.GetPeer`: a plain map lookup; a GUID absent from the
in-memory map yields absent — the manager never consults the store
here. -/
def mgrGetPeer (peers : List MPeer) (guid : String) : Option MPeer :=
  peers.find? (fun q => q.guid = guid)

/-- `peers.Manager.RemoveInactivePeer`: delete from the map only. -/
def mgrRemoveInactivePeer (peers : List MPeer) (guid : String) : List MPeer :=
  peers.filter (fun q => ¬ q.guid = guid)

/-- `peers.Manager.GetPeersLastSeenAfter`: entries with
`LastSeen > cutoff`. -/
def mgrGetPeersLastSeenAfter (peers : List MPeer) (cutoff : Nat) : List MPeer :=
  peers.filter (fun q => cutoff < q.lastSeen)

/-! ## Discovery service peer lookup (`discovery.Service.GetPeer`) -/

/-- `discovery.Peer` (the public key is `[]` when not yet fetched). -/
structure DiscPeer where
  guid : String
  port : Nat
  name : String
  ip : String
  publicKey : List Nat
  lastSeen : Nat
deriving DecidableEq, Repr

/-- The discovery service's mutable state as `GetPeer` sees it: the
in-memory peer map and the peers table of the store. -/
structure DiscState where
  peers : List DiscPeer
  dbPeers : List DBPeer
deriving DecidableEq, Repr

/-- `discovery.Service.GetPeer guid` at instant `now`: the in-memory map
first; on a miss, probe the store — a stale row
(`time.Since(LastSeen) > activePeerTimeout`) is deleted from the store
and absent returned, a fresh row is converted, cached in the map and
returned. -/
def serviceGetPeer (st : DiscState) (now : Nat) (guid : String) :
    Option DiscPeer × DiscState :=
  match st.peers.find? (fun p => p.guid = guid) with
  | some p => (some p, st)
  | none =>
    match dbGetPeer st.dbPeers guid with
    | some dp =>
      if activeTimeoutMs < now - dp.lastSeen then
        (none, { st with dbPeers := dbDeletePeer st.dbPeers guid })
      else
        let p : DiscPeer := { guid := dp.guid, port := dp.port, name := dp.username,
                              ip := dp.ipAddress, publicKey := dp.publicKey,
                              lastSeen := dp.lastSeen }
        (some p, { st with peers := st.peers ++ [p] })
    | none => (none, st)

/-- `discovery.Service.RemoveInactivePeer`: delete from the in-memory
map only. -/
def serviceRemoveInactivePeer (peers : List DiscPeer) (guid : String) : List DiscPeer :=
  peers.filter (fun q => ¬ q.guid = guid)

/-! ## Event bus payloads

Everything the message pipeline publishes with `wsManager.Broadcast`,
tagged as the source tags it.  Only the fields a claim inspects are
kept; the free-text `details`/`summary` strings are carried verbatim
except that the percentage interpolated into some of them is elided
(float formatting is outside the embedding). -/

/-- An event published on the bus. -/
inductive Event where
  /-- a `message` event (`WebMessage` payload: sender GUID and content). -/
  | message (senderGUID : String) (content : List Nat)
  /-- a `delivery_status` event without the `total` field. -/
  | deliveryStatus (messageID : List Nat) (status details : String)
  /-- the `broadcasting` `delivery_status` event, which carries `total`. -/
  | deliveryStatusTotal (messageID : List Nat) (status : String) (total : Nat)
  /-- the `sending` `delivery_status` event of a private send, which
  carries `peer_guid`. -/
  | deliveryStatusPeer (messageID : List Nat) (status : String) (peerGUID : String)
  /-- a `delivery_progress` event with the rolling counters. -/
  | deliveryProgress (messageID : List Nat) (peerGUID peerName : String)
      (success : Bool) (succeeded failed total : Nat)
  /-- the broadcast-path `delivery_final` event. -/
  | deliveryFinalBroadcast (messageID : List Nat) (status : String)
      (succeeded failed total : Nat)
  /-- the private-path `delivery_final` event. -/
  | deliveryFinalPrivate (messageID : List Nat) (status : String)
      (peerGUID : String) (success : Bool) (err : String)
  /-- a `peer_offline` event. -/
  | peerOffline (guid name reason : String)
deriving DecidableEq, Repr

/-- Is this a `message`-typed event? -/
def Event.isMessage : Event → Bool
  | .message _ _ => true
  | _ => false

/-- Is this a `delivery_final`-typed event (either payload shape)? -/
def Event.isFinal : Event → Bool
  | .deliveryFinalBroadcast _ _ _ _ _ => true
  | .deliveryFinalPrivate _ _ _ _ _ => true
  | _ => false

/-- Is this a `peer_offline` event? -/
def Event.isPeerOffline : Event → Bool
  | .peerOffline _ _ _ => true
  | _ => false

/-! ## Messages (`messages.Message`, `messages.EncryptedMessage`,
delivery reports) -/

/-- `messages.Message`.  The Go `ID` string is kept as its byte list
(it is used both for store lookups and as the OAEP label, where Go
takes `[]byte(m.ID)`); `Content` is the plaintext byte slice;
`Timestamp` in milliseconds. -/
structure Message where
  id : List Nat
  senderGUID : String
  receiverGUID : String
  ty : String
  scope : String
  content : List Nat
  timestamp : Nat
deriving DecidableEq, Repr

/-- `messages.EncryptedMessage`: the wire form; `Content` is the byte
list of the base64 ciphertext string. -/
structure EncryptedMessage where
  id : List Nat
  senderGUID : String
  receiverGUID : String
  ty : String
  scope : String
  content : List Nat
  timestamp : Nat
deriving DecidableEq, Repr

/-- `messages.MessageDeliveryStatus`. -/
structure DeliveryStatus where
  peerGUID : String
  peerName : String
  success : Bool
  error : String
  time : Nat
deriving DecidableEq, Repr

/-- `messages.MessageDeliveryReport`. -/
structure DeliveryReport where
  messageID : List Nat
  totalPeers : Nat
  succeeded : Nat
  failed : Nat
  deliveryTime : Nat
  peerStatuses : List DeliveryStatus
  summary : String
deriving DecidableEq, Repr

/-- The report `ProcessMessage` starts from (and returns unchanged on
the duplicate path): id and time stamped, everything else zero/empty. -/
def emptyReport (id : List Nat) (now : Nat) : DeliveryReport :=
  { messageID := id, totalPeers := 0, succeeded := 0, failed := 0,
    deliveryTime := now, peerStatuses := [], summary := "" }

/-- The bytes of a Go string (for the synthesized system messages). -/
def strToBytes (s : String) : List Nat := s.data.map Char.toNat

/-! ## Message pipeline (`messagehandler.Handler`) -/

/-- The handler state the pipeline reads and writes: this node's GUID,
the messages table, the manager's and the discovery service's in-memory
peer maps, and the `failedPeers` cooldown map (GUID ↦ instant of the
last handled failure, milliseconds). -/
structure HandlerState where
  guid : String
  store : List StoredMessage
  mgrPeers : List MPeer
  discPeers : List DiscPeer
  failedPeers : List (String × Nat)
deriving DecidableEq, Repr

/-- `db.SaveMessage msg sourceIP`: `INSERT INTO messages (message_id,
sender_guid, receiver_guid, content, type, scope, created_at,
source_ip)`.  The schema's `message_id TEXT NOT NULL UNIQUE`
constraint makes the insert fail when a row with the same logical id
already exists; `ProcessMessage` only logs that error, so the table is
then unchanged.  A fresh row gets the next integer primary key. -/
def dbSaveMessage (store : List StoredMessage) (msg : Message) (sourceIP : String) :
    List StoredMessage :=
  if store.any (fun r => r.messageId = msg.id) then store
  else
    store ++ [{ rowid := store.foldl (fun a r => max a r.rowid) 0 + 1,
                messageId := msg.id, senderGUID := msg.senderGUID,
                receiverGUID := msg.receiverGUID, content := msg.content,
                ty := msg.ty, scope := msg.scope, createdAt := msg.timestamp,
                sourceIP := sourceIP }]

/-- The 5-second duplicate-failure suppressor
(`if time.Since(failureTime) < 5*time.Second`), in milliseconds. -/
def suppressMs : Nat := 5000

/-- `messagehandler.Handler.handleDeliveryFailure` at instant `now` for
the discovery peer `(peerGUID, peerName)` with `reason = status.Error`:
if a failure for this GUID was handled within the last 5 s, do nothing;
otherwise resolve the peer's current name from the manager (falling
back to the discovery peer's name), remove the peer from both in-memory
maps, record `now` in the cooldown map, and publish a `peer_offline`
event followed by a synthesized system `message` event. -/
def handleDeliveryFailure (st : HandlerState) (now : Nat)
    (peerGUID peerName reason : String) : HandlerState × List Event :=
  let go : HandlerState × List Event :=
    let name := match mgrGetPeer st.mgrPeers peerGUID with
      | some mp => mp.name
      | none => peerName
    let st2 : HandlerState :=
      { st with
        mgrPeers := mgrRemoveInactivePeer st.mgrPeers peerGUID,
        discPeers := serviceRemoveInactivePeer st.discPeers peerGUID,
        failedPeers := (peerGUID, now) :: st.failedPeers.filter (fun e => ¬ e.1 = peerGUID) }
    (st2, [Event.peerOffline peerGUID name reason,
           Event.message "system"
             (strToBytes ("Peer " ++ name ++ " (" ++ peerGUID ++ ") went offline: " ++ reason))])
  match st.failedPeers.lookup peerGUID with
  | some t => if now - t < suppressMs then (st, []) else go
  | none => go

/-- `messagehandler.Handler.ForwardMessageToPeer`, with the whole
key-fetch/encrypt/POST chain summarised by the `outcome` oracle (every
failure mode of the source — key fetch, key parse, encryption,
marshalling, the POST, a non-202 status — ends in the same shape: a
failed status with a reason, plus an internal `handleDeliveryFailure`
call; a 202 response ends in a successful status). -/
def forwardMessageToPeer (st : HandlerState) (now : Nat) (outcome : Bool × String)
    (peerGUID peerName : String) : HandlerState × List Event × DeliveryStatus :=
  if outcome.1 then
    (st, [], { peerGUID := peerGUID, peerName := peerName, success := true,
               error := "", time := now })
  else
    let status : DeliveryStatus :=
      { peerGUID := peerGUID, peerName := peerName, success := false,
        error := outcome.2, time := now }
    let (st2, evs) := handleDeliveryFailure st now peerGUID peerName outcome.2
    (st2, evs, status)

/-- The per-send summary string (`"Delivered to s/t peers"`); the
percentage the source interpolates is elided. -/
def summaryString (s t : Nat) : String :=
  "Delivered to " ++ toString s ++ "/" ++ toString t ++ " peers"

/-- The final touch of `ProcessMessage`: set `report.Summary` iff
`TotalPeers > 0`. -/
def withSummary (rep : DeliveryReport) : DeliveryReport :=
  if rep.totalPeers > 0 then
    { rep with summary := summaryString rep.succeeded rep.totalPeers }
  else rep

/-- The broadcast fan-out's per-target step: forward (with its internal
failure handling), grow the report, call `handleDeliveryFailure` again
on failure (the second call is what the 5-second suppressor
deduplicates), then publish the `delivery_progress` event. -/
def broadcastStep (outcome : String → Bool × String) (now : Nat) (msgID : List Nat)
    (total : Nat) (acc : HandlerState × List Event × DeliveryReport) (p : MPeer) :
    HandlerState × List Event × DeliveryReport :=
  let (s, evs, rep) := acc
  let (s1, fevs1, status) := forwardMessageToPeer s now (outcome p.guid) p.guid p.name
  let rep1 : DeliveryReport :=
    { rep with
      peerStatuses := rep.peerStatuses ++ [status],
      succeeded := rep.succeeded + (if status.success then 1 else 0),
      failed := rep.failed + (if status.success then 0 else 1) }
  let (s2, fevs2) :=
    if status.success then (s1, ([] : List Event))
    else handleDeliveryFailure s1 now p.guid p.name status.error
  let prog := Event.deliveryProgress msgID p.guid p.name status.success
    rep1.succeeded rep1.failed total
  (s2, evs ++ fevs1 ++ fevs2 ++ [prog], rep1)

/-- `messagehandler.Handler.ProcessMessage msg sourceIP` at instant
`now`, the per-peer network outcomes given by `outcome` (GUID ↦
(success?, error)).  Returns the new state, the events published on the
bus in order, and the delivery report.  The `OnMessage` logging hook is
omitted (it publishes nothing). -/
def processMessage (st : HandlerState) (outcome : String → Bool × String) (now : Nat)
    (msg : Message) (sourceIP : String) : HandlerState × List Event × DeliveryReport :=
  let report0 := emptyReport msg.id now
  if dbMessageExists st.store msg.id then (st, [], report0)
  else
    let st := { st with store := dbSaveMessage st.store msg sourceIP }
    if msg.senderGUID = st.guid then
      let evs0 := [Event.message msg.senderGUID msg.content,
                   Event.deliveryStatus msg.id "processing" "Starting message delivery..."]
      if msg.scope = "broadcast" then
        let targets := st.mgrPeers.filter (fun p => ¬ p.guid = msg.senderGUID)
        let total := targets.length
        if total = 0 then
          (st, evs0 ++ [Event.deliveryStatus msg.id "completed"
                          "No peers available for broadcast"],
           withSummary { report0 with totalPeers := 0 })
        else
          let evs1 := evs0 ++ [Event.deliveryStatusTotal msg.id "broadcasting" total]
          let rep0 : DeliveryReport := { report0 with totalPeers := total }
          let r := targets.foldl (broadcastStep outcome now msg.id total) (st, evs1, rep0)
          let fin := Event.deliveryFinalBroadcast msg.id "completed"
            r.2.2.succeeded r.2.2.failed total
          (r.1, r.2.1 ++ [fin], withSummary r.2.2)
      else if msg.scope = "private" then
        let rep1 : DeliveryReport := { report0 with totalPeers := 1 }
        let evs1 := evs0 ++ [Event.deliveryStatusPeer msg.id "sending" msg.receiverGUID]
        match mgrGetPeer st.mgrPeers msg.receiverGUID with
        | some mp =>
          let (s1, fevs1, status) :=
            forwardMessageToPeer st now (outcome mp.guid) mp.guid mp.name
          let rep2 : DeliveryReport :=
            { rep1 with
              peerStatuses := [status],
              succeeded := if status.success then 1 else 0,
              failed := if status.success then 0 else 1 }
          let (s2, fevs2) :=
            if status.success then (s1, ([] : List Event))
            else handleDeliveryFailure s1 now mp.guid mp.name status.error
          let fin := Event.deliveryFinalPrivate msg.id "completed" mp.guid
            status.success status.error
          (s2, evs1 ++ fevs1 ++ fevs2 ++ [fin], withSummary rep2)
        | none =>
          let status : DeliveryStatus :=
            { peerGUID := msg.receiverGUID, peerName := "Unknown", success := false,
              error := "Peer not found in active peers list", time := now }
          let rep2 : DeliveryReport :=
            { rep1 with peerStatuses := [status], failed := 1 }
          (st, evs1 ++ [Event.deliveryFinalPrivate msg.id "failed" msg.receiverGUID
                          false "Peer not found in active peers list"],
           withSummary rep2)
      else (st, evs0, withSummary report0)
    else
      (st, [Event.message msg.senderGUID msg.content], withSummary report0)

/-! ## WebSocket session admission (`websocket.verifyLocalhost`,
`upgrader.CheckOrigin`, `Manager.HandleConnection`) -/

/-- `strings.HasPrefix`, over the character lists (Lean's own
`String.startsWith` is opaque to kernel evaluation). -/
def strStartsWith (s pre : String) : Bool := pre.toList.isPrefixOf s.toList

/-- The index of the last occurrence of `c` in `cs`. -/
def lastIdxOf (cs : List Char) (c : Char) : Option Nat :=
  (cs.reverse.findIdx? (fun x => x = c)).map (fun r => cs.length - 1 - r)

/-- `net.SplitHostPort` (net/ipsock.go): split `host:port`, handling the
bracketed `[host]:port` form; `none` models every error return
(missing port, too many colons, missing or unexpected brackets). -/
def splitHostPort (s : String) : Option (String × String) :=
  let cs := s.toList
  match lastIdxOf cs ':' with
  | none => none
  | some i =>
    if cs.head? = some '[' then
      match cs.findIdx? (fun x => x = ']') with
      | none => none
      | some e =>
        if e + 1 = cs.length then none
        else if e + 1 = i then
          if ((cs.drop 1).findIdx? (fun x => x = '[')).isSome then none
          else if ((cs.drop (e + 1)).findIdx? (fun x => x = ']')).isSome then none
          else some (String.mk ((cs.drop 1).take (e - 1)), String.mk (cs.drop (i + 1)))
        else none
    else
      let host := cs.take i
      if (host.findIdx? (fun x => x = ':')).isSome then none
      else if (cs.findIdx? (fun x => x = '[')).isSome then none
      else if (cs.findIdx? (fun x => x = ']')).isSome then none
      else some (String.mk host, String.mk (cs.drop (i + 1)))

/-- A request to `/ws` as the admission checks see it: the TCP peer
address (`r.RemoteAddr`), and the `X-Forwarded-For` and `Origin`
headers (`""` models an absent header, as `Header.Get` returns). -/
structure WsRequest where
  remoteAddr : String
  xForwardedFor : String
  origin : String
deriving DecidableEq, Repr

/-- The client address `verifyLocalhost` inspects: `X-Forwarded-For`
when the header is non-empty, else `RemoteAddr`; then the host part via
`SplitHostPort`, falling back to the whole value when the split
errors. -/
def effectiveHost (r : WsRequest) : String :=
  let ip := if r.xForwardedFor ≠ "" then r.xForwardedFor else r.remoteAddr
  match splitHostPort ip with
  | some (h, _) => h
  | none => ip

/-- The host part of the request's actual TCP peer address (what
"originates from" denotes), extracted the same way `verifyLocalhost`
would from `RemoteAddr` alone. -/
def remoteHost (r : WsRequest) : String :=
  match splitHostPort r.remoteAddr with
  | some (h, _) => h
  | none => r.remoteAddr

/-- `websocket.verifyLocalhost`. -/
def verifyLocalhost (r : WsRequest) : Bool :=
  let host := effectiveHost r
  host = "127.0.0.1" ∨ host = "::1" ∨ host = "localhost"

/-- `upgrader.CheckOrigin`: `verifyLocalhost` again, a non-empty
`Origin`, and one of the four accepted origin prefixes. -/
def checkOrigin (r : WsRequest) : Bool :=
  verifyLocalhost r &&
    (r.origin ≠ "" &&
      (strStartsWith r.origin "https://localhost:" ||
       strStartsWith r.origin "https://127.0.0.1:" ||
       strStartsWith r.origin "http://localhost:" ||
       strStartsWith r.origin "http://127.0.0.1:"))

/-- The admission decision of `Manager.HandleConnection`: its own
`verifyLocalhost` guard (403 otherwise) and then the
`upgrader.CheckOrigin` check run by `Upgrade` (the upgrade's unrelated
failure modes — wrong method, missing websocket headers — are outside
the admission property). -/
def wsSessionAccepted (r : WsRequest) : Bool :=
  verifyLocalhost r && checkOrigin r

/-! ## RSA-OAEP with the message id as label
(`messages.Message.Encrypt`, `messages.EncryptedMessage.Decrypt`)

The Go code calls `rsa.EncryptOAEP(sha256.New(), rand.Reader, pk,
content, []byte(id))` and `rsa.DecryptOAEP(sha256.New(), rand.Reader,
sk, ct, []byte(id))` and base64-encodes the ciphertext.  The standard
library's OAEP (crypto/rsa) is embedded here byte for byte, with two
generalisations that keep the embedding executable: the hash is a
parameter `hash : List Nat → List Nat` of output length `hLen`
(SHA-256 is the instance `hLen = 32`), and the random seed drawn from
`rand.Reader` is an explicit argument.  RSA keys are `(n, e)` /
`(n, d)` with modular exponentiation over `Nat`. -/

/-- Modular exponentiation by squaring (the auxiliary recursion is
structural on a fuel bound so that it also evaluates inside the
kernel; any `fuel ≥ e` gives `b ^ e % n`). -/
def powModAux (n : Nat) : Nat → Nat → Nat → Nat
  | 0, _b, _e => 1 % n
  | _fuel + 1, _b, 0 => 1 % n
  | fuel + 1, b, e =>
    let r := powModAux n fuel (b % n * (b % n) % n) (e / 2)
    if e % 2 = 0 then r else r * (b % n) % n

/-- `b ^ e % n` (what `big.Int.Exp` / `bigmod.Nat.Exp` compute). -/
def powMod (b e n : Nat) : Nat := powModAux n e b e

/-- `OS2IP` / `big.Int.SetBytes`: a big-endian byte list as a number. -/
def os2ip : List Nat → Nat
  | [] => 0
  | b :: rest => b * 256 ^ rest.length + os2ip rest

/-- `I2OSP` / `big.Int.FillBytes`: the `k`-byte big-endian form of `x`. -/
def i2osp (x : Nat) : Nat → List Nat
  | 0 => []
  | k + 1 => i2osp (x / 256) k ++ [x % 256]

/-- `big.Int.BitLen` (the auxiliary recursion is structural on a fuel
bound so that it also evaluates inside the kernel; any `fuel ≥ n`
computes the bit length of `n`). -/
def bitLenAux : Nat → Nat → Nat
  | 0, _n => 0
  | fuel + 1, n => if n = 0 then 0 else bitLenAux fuel (n / 2) + 1

/-- `(*rsa.PublicKey).Size()`: `(n.BitLen() + 7) / 8`. -/
def byteLen (n : Nat) : Nat := (bitLenAux n n + 7) / 8

/-- Byte-wise XOR of two equal-length byte slices. -/
def xorBytes (a b : List Nat) : List Nat := List.zipWith Nat.xor a b

/-- A 32-bit big-endian counter block (`incCounter` in crypto/rsa). -/
def be32 (c : Nat) : List Nat :=
  [c / 16777216 % 256, c / 65536 % 256, c / 256 % 256, c % 256]

/-- `mgf1XOR`'s mask: the concatenation of `hash(seed ∥ counter)` for
counter = 0, 1, ... truncated to `len` bytes.  (`len` blocks always
suffice because each digest is non-empty.) -/
def mgf1 (hash : List Nat → List Nat) (seed : List Nat) (len : Nat) : List Nat :=
  (((List.range len).map (fun c => hash (seed ++ be32 c))).flatten).take len

/-- The constant-time separator scan of `DecryptOAEP` over `db[hLen:]`:
the index of the first `0x01` byte, provided every byte before it is
`0x00`; `none` when a different non-zero byte comes first or no `0x01`
exists. -/
def findSep : List Nat → Option Nat
  | [] => none
  | b :: rest =>
    if b = 1 then some 0
    else if b = 0 then (findSep rest).map (fun i => i + 1)
    else none

/-- `rsa.EncryptOAEP(hash, seed, (n, e), msg, label)`:
`EM = 00 ∥ maskedSeed ∥ maskedDB` with `DB = lHash ∥ PS ∥ 01 ∥ msg`,
`maskedDB = DB ⊕ MGF1(seed)`, `maskedSeed = seed ⊕ MGF1(maskedDB)`,
then `I2OSP((OS2IP EM)^e mod n, k)`.  `none` models the
`ErrMessageTooLong` return (the bound is checked over `Int` exactly as
Go checks it over `int`). -/
def encryptOAEP (hash : List Nat → List Nat) (hLen : Nat) (seed : List Nat)
    (n e : Nat) (label msg : List Nat) : Option (List Nat) :=
  let k := byteLen n
  if (msg.length : Int) > (k : Int) - 2 * (hLen : Int) - 2 then none
  else
    let lHash := hash label
    let ps := List.replicate (k - msg.length - 2 * hLen - 2) 0
    let db := lHash ++ ps ++ [1] ++ msg
    let dbMask := mgf1 hash seed (k - hLen - 1)
    let maskedDB := xorBytes db dbMask
    let seedMask := mgf1 hash maskedDB hLen
    let maskedSeed := xorBytes seed seedMask
    let em := 0 :: maskedSeed ++ maskedDB
    some (i2osp (powMod (os2ip em) e n) k)

/-- `rsa.DecryptOAEP(hash, (n, d), ct, label)`: the size checks, the
`c ≥ n` rejection of `bigmod.Nat.SetBytes`, `EM = I2OSP(c^d mod n, k)`,
unmasking in the reverse order, then the leading-zero-byte check, the
`lHash` comparison and the separator scan, all of whose failures are the
single `ErrDecryption` (`none`). -/
def decryptOAEP (hash : List Nat → List Nat) (hLen : Nat) (n d : Nat)
    (label ct : List Nat) : Option (List Nat) :=
  let k := byteLen n
  if k < 2 * hLen + 2 ∨ k < ct.length then none
  else
    let c := os2ip ct
    if n ≤ c then none
    else
      let em := i2osp (powMod c d n) k
      let maskedSeed := (em.drop 1).take hLen
      let maskedDB := em.drop (1 + hLen)
      let seed := xorBytes maskedSeed (mgf1 hash maskedDB hLen)
      let db := xorBytes maskedDB (mgf1 hash seed (k - hLen - 1))
      if em.take 1 ≠ [0] then none
      else if db.take hLen ≠ hash label then none
      else
        match findSep (db.drop hLen) with
        | none => none
        | some i => some ((db.drop hLen).drop (i + 1))

/-! ## Base64 (`encoding/base64.StdEncoding`) -/

/-- The standard base64 alphabet, as a 6-bit value's ASCII code. -/
def b64char (x : Nat) : Nat :=
  if x < 26 then 65 + x
  else if x < 52 then 97 + (x - 26)
  else if x < 62 then 48 + (x - 52)
  else if x = 62 then 43
  else 47

/-- The decode table: ASCII code back to the 6-bit value. -/
def b64inv (c : Nat) : Option Nat :=
  if 65 ≤ c ∧ c ≤ 90 then some (c - 65)
  else if 97 ≤ c ∧ c ≤ 122 then some (c - 71)
  else if 48 ≤ c ∧ c ≤ 57 then some (c + 4)
  else if c = 43 then some 62
  else if c = 47 then some 63
  else none

/-- `base64.StdEncoding.EncodeToString`: 3-byte groups to 4 characters,
`'='` (61) padding on the final partial group. -/
def b64encode : List Nat → List Nat
  | [] => []
  | [a] => [b64char (a / 4), b64char (a % 4 * 16), 61, 61]
  | [a, b] => [b64char (a / 4), b64char (a % 4 * 16 + b / 16), b64char (b % 16 * 4), 61]
  | a :: b :: c :: rest =>
    b64char (a / 4) :: b64char (a % 4 * 16 + b / 16) ::
      b64char (b % 16 * 4 + c / 64) :: b64char (c % 64) :: b64encode rest

/-- `base64.StdEncoding.DecodeString`: 4-character groups back to bytes,
`'='` (61) padding admitted only in the final group; `none` models
`CorruptInputError` (a bad character, misplaced padding, or a length
that is not a multiple of 4).  Like Go's non-strict decoder, the
trailing bits under the padding are dropped, not checked. -/
def b64decode : List Nat → Option (List Nat)
  | [] => some []
  | c1 :: c2 :: c3 :: c4 :: rest =>
    match b64inv c1, b64inv c2 with
    | some v1, some v2 =>
      if c3 = 61 then
        if c4 = 61 ∧ rest = [] then some [v1 * 4 + v2 / 16] else none
      else
        match b64inv c3 with
        | some v3 =>
          if c4 = 61 then
            if rest = [] then some [v1 * 4 + v2 / 16, v2 % 16 * 16 + v3 / 4]
            else none
          else
            match b64inv c4 with
            | some v4 =>
              (b64decode rest).map
                (fun r => (v1 * 4 + v2 / 16) :: (v2 % 16 * 16 + v3 / 4) ::
                  (v3 % 4 * 64 + v4) :: r)
            | none => none
        | none => none
    | _, _ => none
  | _ => none

/-! ## The message-level wrappers -/

/-- `messages.Message.Encrypt(receiverKey)`: OAEP-encrypt the content
with `label = []byte(m.ID)`, base64 the ciphertext, copy every other
field. -/
def Message.encrypt (hash : List Nat → List Nat) (hLen : Nat) (seed : List Nat)
    (n e : Nat) (m : Message) : Option EncryptedMessage :=
  match encryptOAEP hash hLen seed n e m.id m.content with
  | none => none
  | some ct =>
    some { id := m.id, senderGUID := m.senderGUID, receiverGUID := m.receiverGUID,
           ty := m.ty, scope := m.scope, content := b64encode ct,
           timestamp := m.timestamp }

/-- `messages.EncryptedMessage.Decrypt(privateKey)`: base64-decode the
content, OAEP-decrypt with `label = []byte(em.ID)`, copy every other
field. -/
def EncryptedMessage.decrypt (hash : List Nat → List Nat) (hLen : Nat)
    (n d : Nat) (em : EncryptedMessage) : Option Message :=
  match b64decode em.content with
  | none => none
  | some ct =>
    match decryptOAEP hash hLen n d em.id ct with
    | none => none
    | some pt =>
      some { id := em.id, senderGUID := em.senderGUID,
             receiverGUID := em.receiverGUID, ty := em.ty, scope := em.scope,
             content := pt, timestamp := em.timestamp }

/-- `messagehandler.Handler.HandleMessage` on a POST whose body parses
as an encrypted wire message: reject with 400 when the receiver GUID is
not this node's, 500 when decryption fails, else run `ProcessMessage`
on the decrypted message and answer 202 with the report.  (The
plaintext intra-host branch and the opportunistic
`discoverPeerFromMessage` probe — which publishes only
`peer_discovered` / `peer_discovery_failed` events and never touches
the message store — are outside the modelled path.) -/
def handleMessagePost (hash : List Nat → List Nat) (hLen n d : Nat)
    (st : HandlerState) (outcome : String → Bool × String) (now : Nat)
    (em : EncryptedMessage) (sourceIP : String) :
    Nat × HandlerState × List Event × Option DeliveryReport :=
  if em.receiverGUID ≠ st.guid then (400, st, [], none)
  else
    match em.decrypt hash hLen n d with
    | none => (500, st, [], none)
    | some msg =>
      let r := processMessage st outcome now msg sourceIP
      (202, r.1, r.2.1, some r.2.2)

/-! ## A failure burst, and concrete key material for the witnesses -/

/-- A sequence of delivery-failure instants for one peer, each handled
by `handleDeliveryFailure`, with the published events collected in
order. -/
def failureBurst (peerGUID peerName reason : String) :
    HandlerState → List Nat → HandlerState × List Event
  | st, [] => (st, [])
  | st, t :: ts =>
    let r1 := handleDeliveryFailure st t peerGUID peerName reason
    let r2 := failureBurst peerGUID peerName reason r1.1 ts
    (r2.1, r1.2 ++ r2.2)

/-- A concrete instance of the generic hash parameter for evaluating
the pipeline on concrete inputs: output length 1, and distinguishing
the label `[1]` from every other input. -/
def wHash : List Nat → List Nat := fun x => if x = [1] then [7] else [8]

/-- A concrete RSA modulus for evaluation: `65537 * 65539` (5 bytes). -/
def wN : Nat := 4295229443

/-- The public exponent paired with `wN`. -/
def wE : Nat := 5

/-- The private exponent paired with `wN` and `wE`:
the inverse of 5 modulo `lcm(65536, 65538) = 2147549184`. -/
def wD : Nat := 429509837

/-! # Theorems -/

/-- C8 — Adaptive scan interval: the interval starts at 2 s; from a
state whose unchanged-counter is 0, three consecutive scans that
observe no new peer and leave the peer count unchanged keep the
interval for two scans and then multiply it by 1.25 (truncated to a
whole number of nanoseconds), capped at 15 s; any scan that observes a
new peer or a changed peer count resets the interval to 2 s; an
interval within the cap stays within the cap. -/
theorem claim_C8_scan_interval :
    initScanState.currentInterval = baseIntervalNs ∧
    (∀ st : ScanState, st.consecutiveUnchanged = 0 →
      (scanStep st 0 st.lastPeerCount).currentInterval = st.currentInterval ∧
      (scanStep (scanStep st 0 st.lastPeerCount) 0 st.lastPeerCount).currentInterval
        = st.currentInterval ∧
      (scanStep (scanStep (scanStep st 0 st.lastPeerCount) 0 st.lastPeerCount) 0
          st.lastPeerCount).currentInterval
        = min maxIntervalNs (5 * st.currentInterval / 4)) ∧
    (∀ st : ScanState, ∀ f c : Nat, 0 < f ∨ c ≠ st.lastPeerCount →
      (scanStep st f c).currentInterval = baseIntervalNs) ∧
    (∀ st : ScanState, ∀ f c : Nat, st.currentInterval ≤ maxIntervalNs →
      (scanStep st f c).currentInterval ≤ maxIntervalNs) := by
  refine ⟨rfl, ?_, ?_, ?_⟩
  · intro st h
    have s1 : scanStep st 0 st.lastPeerCount =
        { currentInterval := st.currentInterval, consecutiveUnchanged := 1,
          lastPeerCount := st.lastPeerCount } := by
      simp [scanStep, h, maxConsecutiveUnchanged]
    have s2 : scanStep (scanStep st 0 st.lastPeerCount) 0 st.lastPeerCount =
        { currentInterval := st.currentInterval, consecutiveUnchanged := 2,
          lastPeerCount := st.lastPeerCount } := by
      rw [s1]; simp [scanStep, maxConsecutiveUnchanged]
    refine ⟨by rw [s1], by rw [s2], ?_⟩
    rw [s2]
    simp only [scanStep, maxConsecutiveUnchanged]
    norm_num
    split <;> omega
  · intro st f c h
    rw [scanStep, if_neg]
    omega
  · intro st f c h
    have cases3 : (scanStep st f c).currentInterval = baseIntervalNs ∨
        (scanStep st f c).currentInterval = st.currentInterval ∨
        (scanStep st f c).currentInterval =
          min maxIntervalNs (5 * st.currentInterval / 4) := by
      simp only [scanStep, maxConsecutiveUnchanged]
      split_ifs <;> simp <;> omega
    rcases cases3 with h1 | h1 | h1 <;> rw [h1]
    · simp [baseIntervalNs, maxIntervalNs]
    · exact h
    · exact min_le_left _ _

/-- Witness for C8 at a concrete state: three unchanged scans from
interval 2 s grow it to 2.5 s, and a scan with a new peer resets a
grown interval. -/
theorem claim_C8_witness :
    (scanStep (scanStep (scanStep
        { currentInterval := 2000000000, consecutiveUnchanged := 0, lastPeerCount := 4 }
        0 4) 0 4) 0 4).currentInterval = min maxIntervalNs (5 * 2000000000 / 4) ∧
    (scanStep { currentInterval := 2500000000, consecutiveUnchanged := 0, lastPeerCount := 4 }
        1 4).currentInterval = baseIntervalNs := by
  constructor
  · exact (claim_C8_scan_interval.2.1
      { currentInterval := 2000000000, consecutiveUnchanged := 0, lastPeerCount := 4 }
      rfl).2.2
  · exact claim_C8_scan_interval.2.2.1
      { currentInterval := 2500000000, consecutiveUnchanged := 0, lastPeerCount := 4 }
      1 4 (Or.inl (by decide))

/-- C9 — Fixed page size on the client message list: every successful
`GET /api/v1/client/message` returns the store query with the
hard-coded limit 100, so at most 100 messages come back, and the
request's `limit` query parameter has no effect on the handler's
answer. -/
theorem claim_C9_fixed_page_size :
    (∀ (now : Nat) (store : List StoredMessage) (guid : String)
        (r : GetMessagesRequest) (msgs : List StoredMessage),
      handleGetMessages now store guid r = .ok msgs → msgs.length ≤ 100) ∧
    (∀ (now : Nat) (store : List StoredMessage) (guid : String)
        (r : GetMessagesRequest) (l1 l2 : Option Nat),
      handleGetMessages now store guid { r with limitParam := l1 } =
        handleGetMessages now store guid { r with limitParam := l2 }) := by
  constructor
  · intro now store guid r msgs h
    rw [handleGetMessages] at h
    split at h
    · cases h
    · split at h
      · cases h
      · cases h
        simp only [dbGetMessages, List.length_take]
        exact min_le_left _ _
      · cases h
        simp only [dbGetMessages, List.length_take]
        exact min_le_left _ _
  · intro now store guid r l1 l2
    rfl

/-- Witness for C9: a concrete request against a three-row store gets
three rows (≤ 100), and two requests differing only in `limit` agree. -/
theorem claim_C9_witness :
    (([{ rowid := 1, messageId := [1], senderGUID := "a", receiverGUID := "me",
         content := [104],
         ty := "text", scope := "private", createdAt := 5, sourceIP := "ip" }] :
        List StoredMessage).length ≤ 100 →
      True) ∧
    handleGetMessages 10 [] "me"
        { clientKeyValid := true, sinceParam := .absent, limitParam := some 7 } =
      handleGetMessages 10 [] "me"
        { clientKeyValid := true, sinceParam := .absent, limitParam := none } := by
  constructor
  · intro _; trivial
  · exact claim_C9_fixed_page_size.2 10 [] "me"
      { clientKeyValid := true, sinceParam := .absent, limitParam := none } (some 7) none

/-- `dbGetPeer` commutes with a guid-preserving row rewrite. -/
theorem dbGetPeer_map (store : List DBPeer) (guid : String) (f : DBPeer → DBPeer)
    (hf : ∀ r, (f r).guid = r.guid) :
    dbGetPeer (store.map f) guid = (dbGetPeer store guid).map f := by
  induction store with
  | nil => rfl
  | cons a l ih =>
    simp only [dbGetPeer, List.map_cons, List.find?_cons] at *
    rw [hf a]
    split <;> simp_all

/-- A string starting with `"Peer-"` is non-empty. -/
theorem peer_default_ne_empty (s : String) : ¬ ("Peer-" ++ s = "") := by
  intro h
  have h1 : ("Peer-" ++ s).length = "".length := congrArg String.length h
  rw [String.length_append] at h1
  have h2 : "Peer-".length = 5 := rfl
  have h3 : "".length = 0 := rfl
  omega

/-- C10 (counterexample) — the claim says a `SavePeer` call carrying an
empty name leaves the stored username unchanged; on the row
`(12345678-abcd, Alice)` a call with an empty name rewrites the
username to the default `Peer-12345678`. -/
theorem claim_C10_counterexample :
    (dbGetPeer (savePeer
        [{ guid := "12345678-abcd", username := "Alice", publicKey := [],
           ipAddress := "1.2.3.4", port := 7331, lastSeen := 0 }]
        1000 "12345678-abcd" "1.2.3.4" 7331 none "") "12345678-abcd").map
      DBPeer.username = some "Peer-12345678" ∧
    ¬ ((some "Peer-12345678" : Option String) = some "Alice") := by
  constructor
  · rfl
  · decide

/-- C10 (amended) — `SavePeer` on an existing row: when the early
no-change comparison succeeds (same ip, port, username-as-passed and
matching key) the store is returned untouched, `last_seen` included;
otherwise the row is rewritten with the passed ip and port,
`last_seen := now`, the username replaced by the passed name — or by
the default `"Peer-" ++ guid[:8]` when the passed name is empty — and
the public key replaced only when the passed key is non-nil and
non-empty, kept otherwise. -/
theorem claim_C10_savepeer (store : List DBPeer) (now : Nat) (guid ip : String)
    (port : Nat) (publicKey : Option (List Nat)) (name : String) (ex : DBPeer)
    (hex : dbGetPeer store guid = some ex) :
    (savePeerNoChange ex ip port publicKey name →
      savePeer store now guid ip port publicKey name = store) ∧
    (¬ savePeerNoChange ex ip port publicKey name →
      dbGetPeer (savePeer store now guid ip port publicKey name) guid =
        some { guid := ex.guid,
               username := if name = "" then "Peer-" ++ ex.guid.take 8 else name,
               publicKey := if publicKey.getD [] = [] then ex.publicKey
                 else publicKey.getD [],
               ipAddress := ip, port := port, lastSeen := now }) := by
  have hexguid : ex.guid = guid := by
    have := List.find?_some hex
    simpa using this
  constructor
  · intro hnc
    simp only [savePeer, hex]
    rw [if_pos hnc]
  · intro hnc
    simp only [savePeer, hex]
    rw [if_neg hnc]
    rw [dbGetPeer_map store guid _ (by
      intro r
      split <;> simp [savePeerUpdateRow])]
    rw [hex]
    first
    | simp only [Option.map_some]
    | simp only [Option.map_some']
    rw [if_pos hexguid]
    simp only [savePeerUpdateRow]
    simp only [Option.some.injEq, DBPeer.mk.injEq, eq_self_iff_true, true_and, and_true]
    refine ⟨?_, ?_⟩
    · by_cases hname : name = ""
      · subst hname
        simp [peer_default_ne_empty]
      · simp [hname]
    · rcases hpk : publicKey.getD [] with _ | ⟨b, bs⟩
      · simp [hpk]
      · simp [hpk]

/-- Witness for C10 at a concrete row: a non-empty name and key
overwrite the stored ones and refresh `last_seen`. -/
theorem claim_C10_witness :
    dbGetPeer (savePeer
        [{ guid := "12345678-abcd", username := "Alice", publicKey := [1, 2],
           ipAddress := "1.2.3.4", port := 7331, lastSeen := 0 }]
        1000 "12345678-abcd" "5.6.7.8" 7332 (some [9]) "Bob") "12345678-abcd" =
      some { guid := "12345678-abcd", username := "Bob", publicKey := [9],
             ipAddress := "5.6.7.8", port := 7332, lastSeen := 1000 } := by
  have h := (claim_C10_savepeer
    [{ guid := "12345678-abcd", username := "Alice", publicKey := [1, 2],
       ipAddress := "1.2.3.4", port := 7331, lastSeen := 0 }]
    1000 "12345678-abcd" "5.6.7.8" 7332 (some [9]) "Bob"
    { guid := "12345678-abcd", username := "Alice", publicKey := [1, 2],
      ipAddress := "1.2.3.4", port := 7331, lastSeen := 0 }
    (by rfl)).2 (by decide)
  simpa using h

/-- C2 — Active-set TTL: the claim (and the manager's own comment
"Only contains active peers") requires every peer in `GetPeers`'s
snapshot at time `t` to satisfy `t − last_seen ≤ activeTimeout`; but
nothing ever evicts a stale entry from the manager's map, so the
reachable state "one observation at t = 0, no further activity"
still yields that peer from `GetPeers` — the broadcast fan-out
source — at t = 601 s, violating the bound. -/
theorem claim_C2_codebug :
    ∃ p ∈ mgrGetPeers (mgrHandleUpdate [] 0
      { guid := "peer-b", port := 7331, name := "B", ipAddress := "10.0.0.2",
        lastSeen := 0 }),
      activeTimeoutMs < 601000 - p.lastSeen := by
  refine ⟨{ guid := "peer-b", port := 7331, name := "B", ipAddress := "10.0.0.2",
            lastSeen := 0 }, ?_, by decide⟩
  simp [mgrGetPeers, mgrHandleUpdate]

/-- C6 (counterexample) — the claim attributes the store probe to the
Peer Manager's `GetPeer`; but for a GUID absent from the manager's
map, `Manager.GetPeer` answers absent even though the store holds a
record seen within the active timeout. -/
theorem claim_C6_counterexample :
    mgrGetPeer ([] : List MPeer) "peer-b" = none ∧
    dbGetPeer [{ guid := "peer-b", username := "B", publicKey := [],
                 ipAddress := "10.0.0.2", port := 7331, lastSeen := 500 }] "peer-b" =
      some { guid := "peer-b", username := "B", publicKey := [],
             ipAddress := "10.0.0.2", port := 7331, lastSeen := 500 } ∧
    1000 - 500 ≤ activeTimeoutMs := by
  refine ⟨rfl, rfl, by decide⟩

/-- C6 (amended) — the memory-then-store lookup described by the claim
is implemented by the discovery service's `GetPeer`, not the Peer
Manager's: for a GUID absent from the discovery map, `Service.GetPeer`
returns the persisted record iff its `last_seen` is within
`activeTimeout` (caching it in the map), deletes a stale record and
returns absent; the Peer Manager's `GetPeer` consults only its
in-memory map and returns absent on a miss. -/
theorem claim_C6_getpeer (st : DiscState) (now : Nat) (guid : String) (dp : DBPeer)
    (hmem : st.peers.find? (fun p => p.guid = guid) = none)
    (hdb : dbGetPeer st.dbPeers guid = some dp) :
    (now - dp.lastSeen ≤ activeTimeoutMs →
      serviceGetPeer st now guid =
        (some { guid := dp.guid, port := dp.port, name := dp.username,
                ip := dp.ipAddress, publicKey := dp.publicKey,
                lastSeen := dp.lastSeen },
         { st with peers := st.peers ++
            [{ guid := dp.guid, port := dp.port, name := dp.username,
               ip := dp.ipAddress, publicKey := dp.publicKey,
               lastSeen := dp.lastSeen }] })) ∧
    (activeTimeoutMs < now - dp.lastSeen →
      serviceGetPeer st now guid =
        (none, { st with dbPeers := dbDeletePeer st.dbPeers guid })) ∧
    (∀ peers : List MPeer, (∀ q ∈ peers, ¬ q.guid = guid) →
      mgrGetPeer peers guid = none) := by
  refine ⟨?_, ?_, ?_⟩
  · intro h
    simp only [serviceGetPeer, hmem, hdb]
    rw [if_neg (by omega)]
  · intro h
    simp only [serviceGetPeer, hmem, hdb]
    rw [if_pos h]
  · intro peers h
    rw [mgrGetPeer, List.find?_eq_none]
    intro q hq
    simpa using h q hq

/-- Witness for C6: a fresh persisted record is returned and cached by
the discovery service's lookup while the manager's lookup misses. -/
theorem claim_C6_witness :
    serviceGetPeer
        { peers := [],
          dbPeers := [{ guid := "peer-b", username := "B", publicKey := [],
                        ipAddress := "10.0.0.2", port := 7331, lastSeen := 500 }] }
        1000 "peer-b" =
      (some { guid := "peer-b", port := 7331, name := "B", ip := "10.0.0.2",
              publicKey := [], lastSeen := 500 },
       { peers := [{ guid := "peer-b", port := 7331, name := "B", ip := "10.0.0.2",
                     publicKey := [], lastSeen := 500 }],
         dbPeers := [{ guid := "peer-b", username := "B", publicKey := [],
                       ipAddress := "10.0.0.2", port := 7331, lastSeen := 500 }] }) ∧
    mgrGetPeer ([] : List MPeer) "peer-b" = none := by
  constructor
  · exact (claim_C6_getpeer
      { peers := [],
        dbPeers := [{ guid := "peer-b", username := "B", publicKey := [],
                      ipAddress := "10.0.0.2", port := 7331, lastSeen := 500 }] }
      1000 "peer-b"
      { guid := "peer-b", username := "B", publicKey := [],
        ipAddress := "10.0.0.2", port := 7331, lastSeen := 500 }
      rfl rfl).1 (by decide)
  · exact (claim_C6_getpeer
      { peers := [],
        dbPeers := [{ guid := "peer-b", username := "B", publicKey := [],
                      ipAddress := "10.0.0.2", port := 7331, lastSeen := 500 }] }
      1000 "peer-b"
      { guid := "peer-b", username := "B", publicKey := [],
        ipAddress := "10.0.0.2", port := 7331, lastSeen := 500 }
      rfl rfl).2.2 [] (by intro q hq; cases hq)

/-- C3 (counterexample) — the claim says no request originating from a
non-loopback peer is ever accepted, regardless of the headers it
supplies; but a request whose TCP peer is `192.168.1.7` is accepted
when it carries `X-Forwarded-For: 127.0.0.1` and a localhost Origin,
because `verifyLocalhost` trusts the spoofable header over
`RemoteAddr`. -/
theorem claim_C3_counterexample :
    wsSessionAccepted { remoteAddr := "192.168.1.7:51523",
                        xForwardedFor := "127.0.0.1",
                        origin := "https://localhost:7331" } = true ∧
    remoteHost { remoteAddr := "192.168.1.7:51523",
                 xForwardedFor := "127.0.0.1",
                 origin := "https://localhost:7331" } = "192.168.1.7" ∧
    ¬ ("192.168.1.7" = "127.0.0.1" ∨ "192.168.1.7" = "::1" ∨
       "192.168.1.7" = "localhost") := by
  refine ⟨by decide, by decide, by decide⟩

/-- C3 (amended) — a `/ws` session is accepted iff the client host the
checks derive — from `X-Forwarded-For` when that header is present,
else from `RemoteAddr` — is `127.0.0.1`, `::1` or `localhost`, and the
`Origin` header is non-empty with one of the four accepted localhost
prefixes.  Because the derived host prefers the attacker-controlled
`X-Forwarded-For` header, acceptance is independent of the actual TCP
peer address: any request carrying `X-Forwarded-For: 127.0.0.1` and an
accepted Origin is admitted whatever its `RemoteAddr`. -/
theorem claim_C3_ws_admission :
    (∀ r : WsRequest, wsSessionAccepted r = true ↔
      ((effectiveHost r = "127.0.0.1" ∨ effectiveHost r = "::1" ∨
        effectiveHost r = "localhost") ∧
       (r.origin ≠ "" ∧
        (strStartsWith r.origin "https://localhost:" = true ∨
         strStartsWith r.origin "https://127.0.0.1:" = true ∨
         strStartsWith r.origin "http://localhost:" = true ∨
         strStartsWith r.origin "http://127.0.0.1:" = true)))) ∧
    (∀ addr origin : String, origin ≠ "" →
      strStartsWith origin "https://localhost:" = true →
      wsSessionAccepted { remoteAddr := addr, xForwardedFor := "127.0.0.1",
                          origin := origin } = true) := by
  constructor
  · intro r
    simp only [wsSessionAccepted, checkOrigin, verifyLocalhost, Bool.and_eq_true,
      Bool.or_eq_true, decide_eq_true_eq, ne_eq]
    tauto
  · intro addr origin h1 h2
    have hv : verifyLocalhost
        { remoteAddr := addr, xForwardedFor := "127.0.0.1", origin := origin } =
        true := rfl
    simp only [wsSessionAccepted, checkOrigin, Bool.and_eq_true]
    refine ⟨hv, hv, ?_⟩
    simp only [Bool.and_eq_true, Bool.or_eq_true, decide_eq_true_eq, ne_eq]
    exact ⟨h1, Or.inl (Or.inl (Or.inl h2))⟩

/-- Witness for C3: a loopback request with a localhost origin is
accepted, via the amended characterisation. -/
theorem claim_C3_witness :
    wsSessionAccepted { remoteAddr := "127.0.0.1:40000", xForwardedFor := "",
                        origin := "https://localhost:7331" } = true := by
  exact (claim_C3_ws_admission.1
    { remoteAddr := "127.0.0.1:40000", xForwardedFor := "",
      origin := "https://localhost:7331" }).2
    ⟨by decide, by decide, by decide⟩

/-- A delivery failure within 5 s of the recorded one is fully
suppressed: no state change, no events. -/
theorem hdf_suppressed (st : HandlerState) (now : Nat) (g nm reason : String)
    (t : Nat) (hl : st.failedPeers.lookup g = some t) (hlt : now - t < suppressMs) :
    handleDeliveryFailure st now g nm reason = (st, []) := by
  simp only [handleDeliveryFailure, hl]
  rw [if_pos hlt]

/-- A delivery failure outside the suppression window evicts the peer
from both in-memory maps, records the instant, and publishes a
`peer_offline` event followed by a system `message` event. -/
theorem hdf_go (st : HandlerState) (now : Nat) (g nm reason : String)
    (h : ∀ t, st.failedPeers.lookup g = some t → ¬ now - t < suppressMs) :
    ∃ name, handleDeliveryFailure st now g nm reason =
      ({ st with mgrPeers := mgrRemoveInactivePeer st.mgrPeers g,
                 discPeers := serviceRemoveInactivePeer st.discPeers g,
                 failedPeers := (g, now) ::
                   st.failedPeers.filter (fun e => ¬ e.1 = g) },
       [Event.peerOffline g name reason,
        Event.message "system"
          (strToBytes ("Peer " ++ name ++ " (" ++ g ++ ") went offline: " ++ reason))]) := by
  refine ⟨match mgrGetPeer st.mgrPeers g with | some mp => mp.name | none => nm, ?_⟩
  simp only [handleDeliveryFailure]
  split
  · rename_i t ht
    rw [if_neg (h t ht)]
  · rfl

/-- The events of one `handleDeliveryFailure` call: nothing, or exactly
one `peer_offline` followed by one system `message`. -/
theorem hdf_events_cases (st : HandlerState) (now : Nat) (g nm reason : String) :
    (handleDeliveryFailure st now g nm reason).2 = [] ∨
    ∃ name, (handleDeliveryFailure st now g nm reason).2 =
      [Event.peerOffline g name reason,
       Event.message "system"
         (strToBytes ("Peer " ++ name ++ " (" ++ g ++ ") went offline: " ++ reason))] := by
  simp only [handleDeliveryFailure]
  split
  · split
    · left; rfl
    · right; exact ⟨_, rfl⟩
  · right; exact ⟨_, rfl⟩

/-- Removing a GUID from the manager map makes its lookup miss. -/
theorem mgrGetPeer_remove (peers : List MPeer) (g : String) :
    mgrGetPeer (mgrRemoveInactivePeer peers g) g = none := by
  rw [mgrGetPeer, List.find?_eq_none]
  intro q hq
  have := (List.mem_filter.mp hq).2
  simpa using this

/-- Removing a GUID from the discovery map makes its lookup miss. -/
theorem discFind_remove (peers : List DiscPeer) (g : String) :
    (serviceRemoveInactivePeer peers g).find? (fun q => q.guid = g) = none := by
  rw [List.find?_eq_none]
  intro q hq
  have := (List.mem_filter.mp hq).2
  simpa using this

/-- A whole burst within 5 s of the recorded failure instant is
suppressed. -/
theorem burst_suppressed (g nm reason : String) (st : HandlerState) (t0 : Nat)
    (ts : List Nat) (hl : st.failedPeers.lookup g = some t0)
    (hts : ∀ u ∈ ts, u - t0 < suppressMs) :
    failureBurst g nm reason st ts = (st, []) := by
  induction ts with
  | nil => rfl
  | cons u us ih =>
    rw [failureBurst,
      hdf_suppressed st u g nm reason t0 hl (hts u (List.mem_cons_self u us)),
      ih (fun v hv => hts v (List.mem_cons_of_mem u hv))]
    rfl

/-- C7 — Eviction deduplication: starting from a state with no recorded
failure for peer P, a burst of `1 + |ts|` delivery failures whose
later instants all fall within 5 s of the first produces exactly one
`peer_offline` event, and leaves P removed from both the manager's and
the discovery service's in-memory maps; a further failure at or beyond
the 5-second suppression window produces exactly one more
`peer_offline`. -/
theorem claim_C7_eviction_dedup (st : HandlerState) (g nm reason : String)
    (t0 : Nat) (ts : List Nat)
    (hclean : st.failedPeers.lookup g = none)
    (hburst : ∀ u ∈ ts, u - t0 < suppressMs) :
    (((failureBurst g nm reason st (t0 :: ts)).2.filter Event.isPeerOffline).length
      = 1) ∧
    mgrGetPeer (failureBurst g nm reason st (t0 :: ts)).1.mgrPeers g = none ∧
    ((failureBurst g nm reason st (t0 :: ts)).1.discPeers.find?
      (fun q => q.guid = g)) = none ∧
    (∀ t2 : Nat, suppressMs ≤ t2 - t0 →
      ((handleDeliveryFailure (failureBurst g nm reason st (t0 :: ts)).1 t2 g nm
        reason).2.filter Event.isPeerOffline).length = 1) := by
  obtain ⟨name, hfirst⟩ := hdf_go st t0 g nm reason (by rw [hclean]; intro t ht; cases ht)
  have hlook : (handleDeliveryFailure st t0 g nm reason).1.failedPeers.lookup g
      = some t0 := by
    rw [hfirst]
    simp [List.lookup]
  have hrest : failureBurst g nm reason (handleDeliveryFailure st t0 g nm reason).1 ts
      = ((handleDeliveryFailure st t0 g nm reason).1, []) :=
    burst_suppressed g nm reason _ t0 ts hlook hburst
  have hwhole : failureBurst g nm reason st (t0 :: ts)
      = ((handleDeliveryFailure st t0 g nm reason).1,
         (handleDeliveryFailure st t0 g nm reason).2) := by
    rw [failureBurst, hrest]
    simp
  refine ⟨?_, ?_, ?_, ?_⟩
  · rw [hwhole, hfirst]
    simp [Event.isPeerOffline]
  · rw [hwhole, hfirst]
    exact mgrGetPeer_remove _ _
  · rw [hwhole, hfirst]
    exact discFind_remove _ _
  · intro t2 ht2
    rw [hwhole]
    have hlook2 : (handleDeliveryFailure st t0 g nm reason).1.failedPeers.lookup g
        = some t0 := hlook
    obtain ⟨nm2, h2⟩ := hdf_go (handleDeliveryFailure st t0 g nm reason).1 t2 g nm
      reason (by
        intro t ht
        rw [hlook2] at ht
        cases ht
        omega)
    rw [h2]
    simp [Event.isPeerOffline]

/-- Witness for C7 at a concrete burst: three failures at 1000, 2000
and 3000 ms yield one `peer_offline`. -/
theorem claim_C7_witness :
    ((failureBurst "peer-b" "B" "timeout"
      { guid := "me", store := [],
        mgrPeers := [{ guid := "peer-b", port := 7331, name := "B",
                       ipAddress := "10.0.0.2", lastSeen := 0 }],
        discPeers := [{ guid := "peer-b", port := 7331, name := "B",
                        ip := "10.0.0.2", publicKey := [], lastSeen := 0 }],
        failedPeers := [] }
      [1000, 2000, 3000]).2.filter Event.isPeerOffline).length = 1 := by
  exact (claim_C7_eviction_dedup
    { guid := "me", store := [],
      mgrPeers := [{ guid := "peer-b", port := 7331, name := "B",
                     ipAddress := "10.0.0.2", lastSeen := 0 }],
      discPeers := [{ guid := "peer-b", port := 7331, name := "B",
                      ip := "10.0.0.2", publicKey := [], lastSeen := 0 }],
      failedPeers := [] }
    "peer-b" "B" "timeout" 1000 [2000, 3000] rfl (by decide)).1

/-- `handleDeliveryFailure` never publishes a `delivery_final`. -/
theorem hdf_no_final (st : HandlerState) (now : Nat) (g nm reason : String) :
    ((handleDeliveryFailure st now g nm reason).2.filter Event.isFinal) = [] := by
  rcases hdf_events_cases st now g nm reason with h | ⟨name, h⟩ <;> rw [h] <;> rfl

/-- `ForwardMessageToPeer` never publishes a `delivery_final`. -/
theorem forward_no_final (st : HandlerState) (now : Nat) (oc : Bool × String)
    (g nm : String) :
    ((forwardMessageToPeer st now oc g nm).2.1.filter Event.isFinal) = [] := by
  simp only [forwardMessageToPeer]
  split
  · rfl
  · rcases h : handleDeliveryFailure st now g nm oc.2 with ⟨s2, evs2⟩
    have := hdf_no_final st now g nm oc.2
    rw [h] at this
    simpa using this

/-- One broadcast fan-out step adds no `delivery_final` event. -/
theorem step_no_final (outcome : String → Bool × String) (now : Nat)
    (msgID : List Nat) (total : Nat) (acc : HandlerState × List Event × DeliveryReport)
    (p : MPeer) :
    ((broadcastStep outcome now msgID total acc p).2.1.filter Event.isFinal)
      = acc.2.1.filter Event.isFinal := by
  obtain ⟨s, evs, rep⟩ := acc
  simp only [broadcastStep]
  rcases hf : forwardMessageToPeer s now (outcome p.guid) p.guid p.name
    with ⟨s1, fevs1, status⟩
  have hf1 : fevs1.filter Event.isFinal = [] := by
    have := forward_no_final s now (outcome p.guid) p.guid p.name
    rw [hf] at this
    simpa using this
  cases hsucc : status.success
  · rcases hd : handleDeliveryFailure s1 now p.guid p.name status.error with ⟨s2, fevs2⟩
    have hf2 : fevs2.filter Event.isFinal = [] := by
      have := hdf_no_final s1 now p.guid p.name status.error
      rw [hd] at this
      simpa using this
    simp [hsucc, hd, List.filter_append, hf1, hf2, Event.isFinal]
  · simp [hsucc, List.filter_append, hf1, Event.isFinal]

/-- The whole broadcast fan-out loop adds no `delivery_final` event. -/
theorem fold_no_final (outcome : String → Bool × String) (now : Nat)
    (msgID : List Nat) (total : Nat) (targets : List MPeer)
    (acc : HandlerState × List Event × DeliveryReport) :
    ((targets.foldl (broadcastStep outcome now msgID total) acc).2.1.filter
      Event.isFinal) = acc.2.1.filter Event.isFinal := by
  induction targets generalizing acc with
  | nil => rfl
  | cons p ps ih =>
    rw [List.foldl_cons, ih, step_no_final]

/-- C1 — The at-most-once dedup is broken: `db.MessageExists` runs
`SELECT COUNT(*) FROM messages WHERE id = ?` with the message's UUID
string, but `id` is the table's INTEGER PRIMARY KEY surrogate (the
UUID lives in `message_id`), and a UUID never converts to an integer
under SQLite affinity, so the probe always reports absent and
`ProcessMessage` never drops a duplicate.  Concretely: the same
encrypted message (UUID id) received twice yields two 202 responses;
the first receipt stores the row, yet the dedup probe still misses it;
the second receipt is reprocessed — its `SaveMessage` fails on the
`message_id` UNIQUE constraint (only logged), keeping one row — and a
second `message` event reaches the bus, contradicting the claimed drop
before any store write or event publication. -/
theorem claim_C1_codebug :
    (let msg : Message :=
       { id := strToBytes "7f9c2ba4-e88f-11e9-8f0b-362b9e155667",
         senderGUID := "peer-a", receiverGUID := "me", ty := "text",
         scope := "private", content := [104], timestamp := 0 }
     let em := (Message.encrypt wHash 1 [42] wN wE msg).getD
        { id := [], senderGUID := "", receiverGUID := "", ty := "", scope := "",
          content := [], timestamp := 0 }
     let st0 : HandlerState :=
       { guid := "me", store := [], mgrPeers := [], discPeers := [],
         failedPeers := [] }
     let r1 := handleMessagePost wHash 1 wN wD st0 (fun _ => (true, "")) 5 em "ip1"
     let r2 := handleMessagePost wHash 1 wN wD r1.2.1 (fun _ => (true, "")) 6 em "ip2"
     r1.1 = 202 ∧ r2.1 = 202 ∧
     (r1.2.1.store.filter (fun m => m.messageId = msg.id)).length = 1 ∧
     dbMessageExists r1.2.1.store msg.id = false ∧
     (r2.2.1.store.filter (fun m => m.messageId = msg.id)).length = 1 ∧
     (r1.2.2.1.filter Event.isMessage).length = 1 ∧
     (r2.2.2.1.filter Event.isMessage).length = 1) := by
  decide

/-- C5 (counterexample) — the claim requires exactly one
`delivery_final` even when the active-peer set is empty; a local
broadcast on a node with no peers publishes none (the code sends only
a `delivery_status` with "No peers available for broadcast"). -/
theorem claim_C5_counterexample :
    ((processMessage
        { guid := "me", store := [], mgrPeers := [], discPeers := [],
          failedPeers := [] }
        (fun _ => (true, "")) 0
        { id := [1], senderGUID := "me", receiverGUID := "", ty := "text",
          scope := "broadcast", content := [104], timestamp := 0 }
        "ip").2.1.filter Event.isFinal).length = 0 ∧
    ((processMessage
        { guid := "me", store := [], mgrPeers := [], discPeers := [],
          failedPeers := [] }
        (fun _ => (true, "")) 0
        { id := [1], senderGUID := "me", receiverGUID := "", ty := "text",
          scope := "broadcast", content := [104], timestamp := 0 }
        "ip").2.1.filter Event.isFinal).length ≠ 1 := by
  refine ⟨by decide, by decide⟩

/-- C5 (amended) — a locally submitted broadcast with a non-empty
target set publishes exactly one `delivery_final`; with an empty
target set it publishes none — a `delivery_status` "completed" /
"No peers available for broadcast" instead — and its report carries
`total = 0` with no per-peer entries and no failures. -/
theorem claim_C5_final_totality (st : HandlerState)
    (outcome : String → Bool × String) (now : Nat) (msg : Message) (ip : String)
    (hself : msg.senderGUID = st.guid)
    (hscope : msg.scope = "broadcast")
    (hfresh : dbMessageExists st.store msg.id = false) :
    (st.mgrPeers.filter (fun p => ¬ p.guid = msg.senderGUID) ≠ [] →
      (((processMessage st outcome now msg ip).2.1).filter Event.isFinal).length
        = 1) ∧
    (st.mgrPeers.filter (fun p => ¬ p.guid = msg.senderGUID) = [] →
      ((((processMessage st outcome now msg ip).2.1).filter Event.isFinal).length
        = 0 ∧
       Event.deliveryStatus msg.id "completed" "No peers available for broadcast"
         ∈ (processMessage st outcome now msg ip).2.1 ∧
       (processMessage st outcome now msg ip).2.2.totalPeers = 0 ∧
       (processMessage st outcome now msg ip).2.2.peerStatuses = [] ∧
       (processMessage st outcome now msg ip).2.2.failed = 0)) := by
  constructor
  · intro hne
    rw [hself] at hne
    have hlen : ¬ (st.mgrPeers.filter (fun p => ¬ p.guid = st.guid)).length = 0 :=
      fun h0 => hne (List.length_eq_zero.mp h0)
    simp only [processMessage, hfresh, Bool.false_eq_true, if_false, hself, hscope,
      eq_self_iff_true, if_true]
    rw [if_neg hlen]
    simp only [List.filter_append, fold_no_final]
    simp [Event.isFinal]
  · intro he
    rw [hself] at he
    have hlen0 : (st.mgrPeers.filter (fun p => ¬ p.guid = st.guid)).length = 0 := by
      rw [he]
      rfl
    simp only [processMessage, hfresh, Bool.false_eq_true, if_false, hself, hscope,
      eq_self_iff_true, if_true]
    rw [if_pos hlen0]
    refine ⟨?_, ?_, ?_, ?_, ?_⟩ <;>
      simp [Event.isFinal, withSummary, emptyReport]

/-- Witness for C5: one active peer yields exactly one
`delivery_final` on a concrete broadcast. -/
theorem claim_C5_witness :
    (((processMessage
        { guid := "me", store := [],
          mgrPeers := [{ guid := "peer-b", port := 7331, name := "B",
                         ipAddress := "10.0.0.2", lastSeen := 0 }],
          discPeers := [], failedPeers := [] }
        (fun _ => (true, "")) 0
        { id := [1], senderGUID := "me", receiverGUID := "", ty := "text",
          scope := "broadcast", content := [104], timestamp := 0 }
        "ip").2.1).filter Event.isFinal).length = 1 := by
  exact (claim_C5_final_totality
    { guid := "me", store := [],
      mgrPeers := [{ guid := "peer-b", port := 7331, name := "B",
                     ipAddress := "10.0.0.2", lastSeen := 0 }],
      discPeers := [], failedPeers := [] }
    (fun _ => (true, "")) 0
    { id := [1], senderGUID := "me", receiverGUID := "", ty := "text",
      scope := "broadcast", content := [104], timestamp := 0 }
    "ip" rfl rfl rfl).1 (by decide)

/-! ### Arithmetic lemmas for the RSA layer -/

/-- `powModAux` computes `b ^ e % n` whenever the fuel covers `e`. -/
theorem powModAux_eq (n : Nat) (_hn : 0 < n) :
    ∀ fuel e b, e ≤ fuel → powModAux n fuel b e = b ^ e % n := by
  intro fuel
  induction fuel with
  | zero =>
    intro e b he
    have h0 : e = 0 := Nat.le_zero.mp he
    subst h0
    simp [powModAux]
  | succ fuel ih =>
    intro e b he
    cases e with
    | zero => simp [powModAux]
    | succ e0 =>
      have hdiv : (e0 + 1) / 2 ≤ fuel := by omega
      have hrec := ih ((e0 + 1) / 2) (b % n * (b % n) % n) hdiv
      simp only [powModAux, hrec]
      have hX : (b % n * (b % n) % n) ^ ((e0 + 1) / 2) % n
          = b ^ (2 * ((e0 + 1) / 2)) % n := by
        calc (b % n * (b % n) % n) ^ ((e0 + 1) / 2) % n
            = (b % n * (b % n)) ^ ((e0 + 1) / 2) % n := by rw [← Nat.pow_mod]
          _ = ((b % n) ^ 2) ^ ((e0 + 1) / 2) % n := by rw [sq]
          _ = (b % n) ^ (2 * ((e0 + 1) / 2)) % n := by rw [pow_mul]
          _ = b ^ (2 * ((e0 + 1) / 2)) % n := by rw [← Nat.pow_mod]
      split
      · rename_i hpar
        rw [hX]
        have h2 : 2 * ((e0 + 1) / 2) = e0 + 1 := by omega
        rw [h2]
      · rename_i hpar
        rw [hX]
        calc b ^ (2 * ((e0 + 1) / 2)) % n * (b % n) % n
            = b ^ (2 * ((e0 + 1) / 2)) * b % n := by
              conv_rhs => rw [Nat.mul_mod]
          _ = b ^ (2 * ((e0 + 1) / 2) + 1) % n := by rw [pow_succ]
          _ = b ^ (e0 + 1) % n := by
              have h2 : 2 * ((e0 + 1) / 2) + 1 = e0 + 1 := by omega
              rw [h2]

/-- `powMod` is `b ^ e % n`. -/
theorem powMod_eq (b e n : Nat) (hn : 0 < n) : powMod b e n = b ^ e % n :=
  powModAux_eq n hn e e b le_rfl

/-- `powMod` lands below the modulus. -/
theorem powMod_lt (b e n : Nat) (hn : 0 < n) : powMod b e n < n := by
  rw [powMod_eq b e n hn]
  exact Nat.mod_lt _ hn

/-! ### Byte-string / integer conversions -/

/-- Appending a byte multiplies the value by 256 and adds it. -/
theorem os2ip_append (l : List Nat) (b : Nat) :
    os2ip (l ++ [b]) = os2ip l * 256 + b := by
  induction l with
  | nil => simp [os2ip]
  | cons a l ih =>
    simp only [List.cons_append, os2ip, List.append_eq]
    rw [ih]
    have hlen : (l ++ [b]).length = l.length + 1 := by simp
    rw [hlen, pow_succ]
    ring

/-- A list of bytes is bounded by `256 ^ length`. -/
theorem os2ip_lt (l : List Nat) (h : ∀ b ∈ l, b < 256) :
    os2ip l < 256 ^ l.length := by
  induction l with
  | nil => simp [os2ip]
  | cons a l ih =>
    have ha : a < 256 := h a (List.mem_cons_self a l)
    have hl := ih (fun b hb => h b (List.mem_cons_of_mem a hb))
    simp only [os2ip, List.length_cons, pow_succ]
    calc a * 256 ^ l.length + os2ip l
        < a * 256 ^ l.length + 256 ^ l.length := by omega
      _ = (a + 1) * 256 ^ l.length := by ring
      _ ≤ 256 * 256 ^ l.length := by
          have : a + 1 ≤ 256 := by omega
          exact Nat.mul_le_mul_right _ this
      _ = 256 ^ l.length * 256 := by ring

/-- `i2osp` always produces `k` bytes. -/
theorem i2osp_length (x k : Nat) : (i2osp x k).length = k := by
  induction k generalizing x with
  | zero => rfl
  | succ k ih => simp [i2osp, ih]

/-- Reading back `k` bytes of a value below `256 ^ k`. -/
theorem os2ip_i2osp (k : Nat) : ∀ x, x < 256 ^ k → os2ip (i2osp x k) = x := by
  induction k with
  | zero =>
    intro x hx
    have h0 : x = 0 := by simpa using hx
    subst h0
    rfl
  | succ k ih =>
    intro x hx
    have hdiv : x / 256 < 256 ^ k := by
      rw [Nat.div_lt_iff_lt_mul (by norm_num : 0 < 256)]
      calc x < 256 ^ (k + 1) := hx
        _ = 256 ^ k * 256 := by rw [pow_succ]
    simp only [i2osp, os2ip_append, ih (x / 256) hdiv]
    omega

/-- Writing back the bytes of a byte list's value. -/
theorem i2osp_os2ip (l : List Nat) (h : ∀ b ∈ l, b < 256) :
    i2osp (os2ip l) l.length = l := by
  induction l using List.reverseRecOn with
  | nil => rfl
  | append_singleton l b ih =>
    have hb : b < 256 := h b (by simp)
    have hl := ih (fun x hx => h x (by simp [hx]))
    rw [os2ip_append]
    simp only [List.length_append, List.length_cons, List.length_nil]
    rw [i2osp]
    have hdiv : (os2ip l * 256 + b) / 256 = os2ip l := by omega
    have hmod : (os2ip l * 256 + b) % 256 = b := by omega
    rw [hdiv, hmod, hl]

/-- The fuel-based bit length agrees with `Nat.log2`. -/
theorem bitLenAux_spec : ∀ fuel n, n ≤ fuel →
    bitLenAux fuel n = if n = 0 then 0 else Nat.log2 n + 1 := by
  intro fuel
  induction fuel with
  | zero =>
    intro n hn
    have h0 : n = 0 := Nat.le_zero.mp hn
    subst h0
    rfl
  | succ fuel ih =>
    intro n hn
    by_cases h0 : n = 0
    · subst h0
      rfl
    · rw [if_neg h0, bitLenAux, if_neg h0]
      rw [ih (n / 2) (by omega)]
      by_cases h1 : n / 2 = 0
      · have hn1 : n = 1 := by omega
        subst hn1
        simp [Nat.log2]
      · rw [if_neg h1]
        have h2 : 2 ≤ n := by omega
        conv_rhs => rw [Nat.log2]
        rw [if_pos h2]

/-- `byteLen` computed from a two-sided power-of-two bound. -/
theorem byteLen_eq (n k : Nat) (hk : 0 < k) (hlo : 2 ^ (8 * (k - 1)) ≤ n)
    (hhi : n < 2 ^ (8 * k)) : byteLen n = k := by
  have hn0 : n ≠ 0 := by
    have : (0 : Nat) < 2 ^ (8 * (k - 1)) := Nat.pos_pow_of_pos _ (by norm_num)
    omega
  have hlog_lo : 8 * (k - 1) ≤ Nat.log2 n := (Nat.le_log2 hn0).mpr hlo
  have hlog_hi : Nat.log2 n < 8 * k := (Nat.log2_lt hn0).mpr hhi
  rw [byteLen, bitLenAux_spec n n le_rfl, if_neg hn0]
  omega

/-! ### MGF1 and XOR masking -/

/-- With a hash of fixed positive output length, `mgf1` delivers
exactly the requested number of mask bytes. -/
theorem mgf1_length (hash : List Nat → List Nat) (hLen : Nat) (s : List Nat)
    (len : Nat) (Hh : ∀ x, (hash x).length = hLen) (HhLen : 0 < hLen) :
    (mgf1 hash s len).length = len := by
  rw [mgf1, List.length_take]
  have hmap : ((List.range len).map (fun c => hash (s ++ be32 c))).map List.length
      = List.replicate len hLen := by
    rw [List.map_map]
    apply List.eq_replicate_iff.mpr
    constructor
    · simp
    · intro b hb
      rcases List.mem_map.mp hb with ⟨c, _, hc⟩
      simp only [Function.comp] at hc
      rw [← hc, Hh]
  have hflat : (((List.range len).map (fun c => hash (s ++ be32 c))).flatten).length
      = len * hLen := by
    rw [List.length_flatten, hmap, List.sum_replicate, smul_eq_mul]
  rw [hflat]
  exact Nat.min_eq_left (Nat.le_mul_of_pos_right len HhLen)

/-- All mask bytes are bytes. -/
theorem mgf1_mem_lt (hash : List Nat → List Nat) (s : List Nat) (len : Nat)
    (Hh256 : ∀ x, ∀ b ∈ hash x, b < 256) :
    ∀ b ∈ mgf1 hash s len, b < 256 := by
  intro b hb
  have hb2 := List.take_subset _ _ hb
  rcases List.mem_flatten.mp hb2 with ⟨l, hl, hbl⟩
  rcases List.mem_map.mp hl with ⟨c, _, hc⟩
  exact Hh256 _ b (hc ▸ hbl)

/-- XOR of two bytes is a byte. -/
theorem xor_byte_lt (x y : Nat) (hx : x < 256) (hy : y < 256) : x ^^^ y < 256 := by
  have h := Nat.xor_lt_two_pow (n := 8) hx hy
  simpa using h

/-- The XOR mask length rule. -/
theorem xorBytes_length (a b : List Nat) :
    (xorBytes a b).length = min a.length b.length := by
  simp [xorBytes]

/-- XOR masking twice with the same mask is the identity. -/
theorem xorBytes_cancel (a : List Nat) :
    ∀ m : List Nat, a.length = m.length → xorBytes (xorBytes a m) m = a := by
  induction a with
  | nil => intro m _; rfl
  | cons x xs ih =>
    intro m hm
    cases m with
    | nil => simp at hm
    | cons y ys =>
      simp only [xorBytes, List.zipWith_cons_cons]
      have hx : Nat.xor (Nat.xor x y) y = x := by
        show (x ^^^ y) ^^^ y = x
        rw [Nat.xor_assoc, Nat.xor_self, Nat.xor_zero]
      rw [hx]
      rw [show List.zipWith Nat.xor (List.zipWith Nat.xor xs ys) ys
        = xorBytes (xorBytes xs ys) ys from rfl]
      rw [ih ys (by simpa using hm)]

/-- Members of an XOR of byte lists are bytes. -/
theorem xorBytes_mem_lt (a b : List Nat) (ha : ∀ x ∈ a, x < 256)
    (hb : ∀ x ∈ b, x < 256) : ∀ c ∈ xorBytes a b, c < 256 := by
  induction a generalizing b with
  | nil => intro c hc; simp [xorBytes] at hc
  | cons x xs ih =>
    intro c hc
    cases b with
    | nil => simp [xorBytes] at hc
    | cons y ys =>
      simp only [xorBytes, List.zipWith_cons_cons, List.mem_cons] at hc
      rcases hc with hc | hc
      · subst hc
        exact xor_byte_lt x y (ha x (by simp)) (hb y (by simp))
      · exact ih ys (fun z hz => ha z (by simp [hz]))
          (fun z hz => hb z (by simp [hz])) c hc

/-- The separator scan finds the `0x01` after the zero padding. -/
theorem findSep_replicate (t : Nat) (rest : List Nat) :
    findSep (List.replicate t 0 ++ 1 :: rest) = some t := by
  induction t with
  | zero => simp [findSep]
  | succ t ih =>
    rw [List.replicate_succ, List.cons_append, findSep]
    simp [ih]

/-- Dropping past the padding and separator recovers the tail. -/
theorem drop_replicate_sep (t : Nat) (rest : List Nat) :
    (List.replicate t 0 ++ 1 :: rest).drop (t + 1) = rest := by
  have h1 : (List.replicate t 0 ++ 1 :: rest).drop t = 1 :: rest := by
    have := List.drop_left (List.replicate t 0) (1 :: rest)
    rwa [List.length_replicate] at this
  have h2 : (List.replicate t 0 ++ 1 :: rest).drop (t + 1)
      = ((List.replicate t 0 ++ 1 :: rest).drop t).drop 1 := by
    rw [List.drop_drop]
  rw [h2, h1]
  rfl

/-! ### Base64 round trip -/

/-- Decoding the alphabet inverts encoding for every 6-bit value. -/
theorem b64inv_char : ∀ x : Nat, x < 64 → b64inv (b64char x) = some x := by decide

/-- The alphabet never emits the padding character. -/
theorem b64char_ne_61 (x : Nat) : ¬ b64char x = 61 := by
  rw [b64char]
  split_ifs <;> omega

/-- `base64.StdEncoding` decoding inverts encoding on byte lists. -/
theorem b64decode_encode : ∀ l : List Nat, (∀ x ∈ l, x < 256) →
    b64decode (b64encode l) = some l
  | [], _ => rfl
  | [a], h => by
    have ha : a < 256 := h a (by simp)
    rw [b64encode, b64decode]
    simp [b64inv_char (a / 4) (by omega : a / 4 < 64),
      b64inv_char (a % 4 * 16) (by omega : a % 4 * 16 < 64)]
    omega
  | [a, b], h => by
    have ha : a < 256 := h a (by simp)
    have hb : b < 256 := h b (by simp)
    rw [b64encode, b64decode]
    simp [b64inv_char (a / 4) (by omega : a / 4 < 64),
      b64inv_char (a % 4 * 16 + b / 16) (by omega : a % 4 * 16 + b / 16 < 64),
      b64inv_char (b % 16 * 4) (by omega : b % 16 * 4 < 64),
      b64char_ne_61]
    omega
  | [a, b, c], h => by
    have ha : a < 256 := h a (by simp)
    have hb : b < 256 := h b (by simp)
    have hc : c < 256 := h c (by simp)
    rw [b64encode, b64decode]
    simp [b64inv_char (a / 4) (by omega : a / 4 < 64),
      b64inv_char (a % 4 * 16 + b / 16) (by omega : a % 4 * 16 + b / 16 < 64),
      b64inv_char (b % 16 * 4 + c / 64) (by omega : b % 16 * 4 + c / 64 < 64),
      b64inv_char (c % 64) (by omega : c % 64 < 64),
      b64char_ne_61, b64decode]
    omega
  | a :: b :: c :: d2 :: rest, h => by
    have ha : a < 256 := h a (by simp)
    have hb : b < 256 := h b (by simp)
    have hc : c < 256 := h c (by simp)
    have ih := b64decode_encode (d2 :: rest) (fun x hx => h x (by simp [hx]))
    rw [b64encode, b64decode]
    simp [b64inv_char (a / 4) (by omega : a / 4 < 64),
      b64inv_char (a % 4 * 16 + b / 16) (by omega : a % 4 * 16 + b / 16 < 64),
      b64inv_char (b % 16 * 4 + c / 64) (by omega : b % 16 * 4 + c / 64 < 64),
      b64inv_char (c % 64) (by omega : c % 64 < 64),
      b64char_ne_61, ih]
    omega

/-! ### The OAEP round trip -/

/-- Full evaluation of OAEP: under a valid key and well-formed inputs,
encryption succeeds, and decryption of the ciphertext under any label
recovers the message exactly when the label hashes like the
encryption label. -/
theorem oaep_eval (hash : List Nat → List Nat) (hLen k n e d : Nat)
    (seed label msg : List Nat)
    (Hh : ∀ x, (hash x).length = hLen)
    (Hh256 : ∀ x, ∀ b ∈ hash x, b < 256)
    (HhLen : 0 < hLen)
    (Hseed : seed.length = hLen)
    (Hs256 : ∀ b ∈ seed, b < 256)
    (Hm256 : ∀ b ∈ msg, b < 256)
    (Hlen : msg.length + 2 * hLen + 2 ≤ k)
    (Hnlo : 2 ^ (8 * (k - 1)) ≤ n)
    (Hnhi : n < 2 ^ (8 * k))
    (Hrsa : ∀ m, m < n → powMod (powMod m e n) d n = m) :
    ∃ ct, encryptOAEP hash hLen seed n e label msg = some ct ∧
      ∀ label2, decryptOAEP hash hLen n d label2 ct =
        if hash label2 = hash label then some msg else none := by
  have hk0 : 0 < k := by omega
  have hn0 : 0 < n := lt_of_lt_of_le (Nat.pos_pow_of_pos _ (by norm_num)) Hnlo
  have hbl : byteLen n = k := byteLen_eq n k hk0 Hnlo Hnhi
  have h256k : (256 : Nat) ^ k = 2 ^ (8 * k) := by
    rw [show (256 : Nat) = 2 ^ 8 from rfl, ← pow_mul]
  have h256k1 : (256 : Nat) ^ (k - 1) = 2 ^ (8 * (k - 1)) := by
    rw [show (256 : Nat) = 2 ^ 8 from rfl, ← pow_mul]
  -- the pieces of the encoded block
  have hlH : (hash label).length = hLen := Hh label
  have hdb_len :
      (hash label ++ List.replicate (k - msg.length - 2 * hLen - 2) 0 ++ [1] ++
        msg).length = k - hLen - 1 := by
    simp only [List.length_append, List.length_replicate, List.length_cons,
      List.length_nil, hlH]
    omega
  have hdb256 : ∀ b ∈ hash label ++ List.replicate (k - msg.length - 2 * hLen - 2) 0
      ++ [1] ++ msg, b < 256 := by
    intro b hb
    simp only [List.mem_append, List.mem_replicate, List.mem_singleton] at hb
    rcases hb with ((hb | hb) | hb) | hb
    · exact Hh256 label b hb
    · omega
    · omega
    · exact Hm256 b hb
  have hdbm_len : (mgf1 hash seed (k - hLen - 1)).length = k - hLen - 1 :=
    mgf1_length hash hLen seed _ Hh HhLen
  have hMDB_len :
      (xorBytes (hash label ++ List.replicate (k - msg.length - 2 * hLen - 2) 0 ++
        [1] ++ msg) (mgf1 hash seed (k - hLen - 1))).length = k - hLen - 1 := by
    rw [xorBytes_length, hdb_len, hdbm_len, min_self]
  have hMDB256 := xorBytes_mem_lt _ _ hdb256
    (mgf1_mem_lt hash seed (k - hLen - 1) Hh256)
  have hsm_len : (mgf1 hash (xorBytes (hash label ++
      List.replicate (k - msg.length - 2 * hLen - 2) 0 ++ [1] ++ msg)
      (mgf1 hash seed (k - hLen - 1))) hLen).length = hLen :=
    mgf1_length hash hLen _ _ Hh HhLen
  have hms_len : (xorBytes seed (mgf1 hash (xorBytes (hash label ++
      List.replicate (k - msg.length - 2 * hLen - 2) 0 ++ [1] ++ msg)
      (mgf1 hash seed (k - hLen - 1))) hLen)).length = hLen := by
    rw [xorBytes_length, Hseed, hsm_len, min_self]
  have hms256 := xorBytes_mem_lt seed
    (mgf1 hash (xorBytes (hash label ++
      List.replicate (k - msg.length - 2 * hLen - 2) 0 ++ [1] ++ msg)
      (mgf1 hash seed (k - hLen - 1))) hLen) Hs256
    (mgf1_mem_lt hash (xorBytes (hash label ++
      List.replicate (k - msg.length - 2 * hLen - 2) 0 ++ [1] ++ msg)
      (mgf1 hash seed (k - hLen - 1))) hLen Hh256)
  -- the encoded block and its value
  have hEM256 : ∀ b ∈ (0 : Nat) :: xorBytes seed (mgf1 hash (xorBytes (hash label ++
      List.replicate (k - msg.length - 2 * hLen - 2) 0 ++ [1] ++ msg)
      (mgf1 hash seed (k - hLen - 1))) hLen) ++ xorBytes (hash label ++
      List.replicate (k - msg.length - 2 * hLen - 2) 0 ++ [1] ++ msg)
      (mgf1 hash seed (k - hLen - 1)), b < 256 := by
    intro b hb
    rcases List.mem_cons.mp hb with hb | hb
    · omega
    · rcases List.mem_append.mp hb with hb | hb
      · exact hms256 b hb
      · exact hMDB256 b hb
  have hEM_len : ((0 : Nat) :: xorBytes seed (mgf1 hash (xorBytes (hash label ++
      List.replicate (k - msg.length - 2 * hLen - 2) 0 ++ [1] ++ msg)
      (mgf1 hash seed (k - hLen - 1))) hLen) ++ xorBytes (hash label ++
      List.replicate (k - msg.length - 2 * hLen - 2) 0 ++ [1] ++ msg)
      (mgf1 hash seed (k - hLen - 1))).length = k := by
    simp only [List.length_cons, List.length_append, hms_len, hMDB_len]
    omega
  have hm_lt : os2ip ((0 : Nat) :: xorBytes seed (mgf1 hash (xorBytes (hash label ++
      List.replicate (k - msg.length - 2 * hLen - 2) 0 ++ [1] ++ msg)
      (mgf1 hash seed (k - hLen - 1))) hLen) ++ xorBytes (hash label ++
      List.replicate (k - msg.length - 2 * hLen - 2) 0 ++ [1] ++ msg)
      (mgf1 hash seed (k - hLen - 1))) < n := by
    have h1 : os2ip ((0 : Nat) :: xorBytes seed (mgf1 hash (xorBytes (hash label ++
        List.replicate (k - msg.length - 2 * hLen - 2) 0 ++ [1] ++ msg)
        (mgf1 hash seed (k - hLen - 1))) hLen) ++ xorBytes (hash label ++
        List.replicate (k - msg.length - 2 * hLen - 2) 0 ++ [1] ++ msg)
        (mgf1 hash seed (k - hLen - 1)))
        = os2ip (xorBytes seed (mgf1 hash (xorBytes (hash label ++
        List.replicate (k - msg.length - 2 * hLen - 2) 0 ++ [1] ++ msg)
        (mgf1 hash seed (k - hLen - 1))) hLen) ++ xorBytes (hash label ++
        List.replicate (k - msg.length - 2 * hLen - 2) 0 ++ [1] ++ msg)
        (mgf1 hash seed (k - hLen - 1))) := by
      simp [os2ip]
    rw [h1]
    have h2 := os2ip_lt (xorBytes seed (mgf1 hash (xorBytes (hash label ++
        List.replicate (k - msg.length - 2 * hLen - 2) 0 ++ [1] ++ msg)
        (mgf1 hash seed (k - hLen - 1))) hLen) ++ xorBytes (hash label ++
        List.replicate (k - msg.length - 2 * hLen - 2) 0 ++ [1] ++ msg)
        (mgf1 hash seed (k - hLen - 1)))
      (by
        intro b hb
        rcases List.mem_append.mp hb with hb | hb
        · exact hms256 b hb
        · exact hMDB256 b hb)
    have h3 : (xorBytes seed (mgf1 hash (xorBytes (hash label ++
        List.replicate (k - msg.length - 2 * hLen - 2) 0 ++ [1] ++ msg)
        (mgf1 hash seed (k - hLen - 1))) hLen) ++ xorBytes (hash label ++
        List.replicate (k - msg.length - 2 * hLen - 2) 0 ++ [1] ++ msg)
        (mgf1 hash seed (k - hLen - 1))).length = k - 1 := by
      simp only [List.length_append, hms_len, hMDB_len]
      omega
    rw [h3, h256k1] at h2
    exact lt_of_lt_of_le h2 Hnlo
  refine ⟨i2osp (powMod (os2ip ((0 : Nat) :: xorBytes seed (mgf1 hash (xorBytes
    (hash label ++ List.replicate (k - msg.length - 2 * hLen - 2) 0 ++ [1] ++ msg)
    (mgf1 hash seed (k - hLen - 1))) hLen) ++ xorBytes (hash label ++
    List.replicate (k - msg.length - 2 * hLen - 2) 0 ++ [1] ++ msg)
    (mgf1 hash seed (k - hLen - 1)))) e n) k, ?_, ?_⟩
  · -- encryption evaluates
    simp only [encryptOAEP, hbl]
    rw [if_neg (by omega)]
  · -- decryption evaluates, for an arbitrary label
    intro label2
    have hc_lt : powMod (os2ip ((0 : Nat) :: xorBytes seed (mgf1 hash (xorBytes
        (hash label ++ List.replicate (k - msg.length - 2 * hLen - 2) 0 ++ [1] ++
        msg) (mgf1 hash seed (k - hLen - 1))) hLen) ++ xorBytes (hash label ++
        List.replicate (k - msg.length - 2 * hLen - 2) 0 ++ [1] ++ msg)
        (mgf1 hash seed (k - hLen - 1)))) e n < n := powMod_lt _ _ _ hn0
    have hct_len : (i2osp (powMod (os2ip ((0 : Nat) :: xorBytes seed (mgf1 hash
        (xorBytes (hash label ++ List.replicate (k - msg.length - 2 * hLen - 2) 0 ++
        [1] ++ msg) (mgf1 hash seed (k - hLen - 1))) hLen) ++ xorBytes (hash label
        ++ List.replicate (k - msg.length - 2 * hLen - 2) 0 ++ [1] ++ msg)
        (mgf1 hash seed (k - hLen - 1)))) e n) k).length = k := i2osp_length _ _
    have hos_ct : os2ip (i2osp (powMod (os2ip ((0 : Nat) :: xorBytes seed (mgf1 hash
        (xorBytes (hash label ++ List.replicate (k - msg.length - 2 * hLen - 2) 0 ++
        [1] ++ msg) (mgf1 hash seed (k - hLen - 1))) hLen) ++ xorBytes (hash label
        ++ List.replicate (k - msg.length - 2 * hLen - 2) 0 ++ [1] ++ msg)
        (mgf1 hash seed (k - hLen - 1)))) e n) k)
        = powMod (os2ip ((0 : Nat) :: xorBytes seed (mgf1 hash (xorBytes
        (hash label ++ List.replicate (k - msg.length - 2 * hLen - 2) 0 ++ [1] ++
        msg) (mgf1 hash seed (k - hLen - 1))) hLen) ++ xorBytes (hash label ++
        List.replicate (k - msg.length - 2 * hLen - 2) 0 ++ [1] ++ msg)
        (mgf1 hash seed (k - hLen - 1)))) e n := by
      apply os2ip_i2osp
      calc powMod _ e n < n := hc_lt
        _ < 2 ^ (8 * k) := Hnhi
        _ = 256 ^ k := h256k.symm
    -- names for the big subterms, as proofs about them
    have hEM_back : i2osp (os2ip ((0 : Nat) :: xorBytes seed (mgf1 hash (xorBytes
        (hash label ++ List.replicate (k - msg.length - 2 * hLen - 2) 0 ++ [1] ++
        msg) (mgf1 hash seed (k - hLen - 1))) hLen) ++ xorBytes (hash label ++
        List.replicate (k - msg.length - 2 * hLen - 2) 0 ++ [1] ++ msg)
        (mgf1 hash seed (k - hLen - 1)))) k
        = (0 : Nat) :: xorBytes seed (mgf1 hash (xorBytes
        (hash label ++ List.replicate (k - msg.length - 2 * hLen - 2) 0 ++ [1] ++
        msg) (mgf1 hash seed (k - hLen - 1))) hLen) ++ xorBytes (hash label ++
        List.replicate (k - msg.length - 2 * hLen - 2) 0 ++ [1] ++ msg)
        (mgf1 hash seed (k - hLen - 1)) := by
      have hi := i2osp_os2ip ((0 : Nat) :: xorBytes seed (mgf1 hash (xorBytes
        (hash label ++ List.replicate (k - msg.length - 2 * hLen - 2) 0 ++ [1] ++
        msg) (mgf1 hash seed (k - hLen - 1))) hLen) ++ xorBytes (hash label ++
        List.replicate (k - msg.length - 2 * hLen - 2) 0 ++ [1] ++ msg)
        (mgf1 hash seed (k - hLen - 1))) hEM256
      rwa [hEM_len] at hi
    have htake_ms : (xorBytes seed (mgf1 hash (xorBytes (hash label ++
        List.replicate (k - msg.length - 2 * hLen - 2) 0 ++ [1] ++ msg)
        (mgf1 hash seed (k - hLen - 1))) hLen) ++ xorBytes (hash label ++
        List.replicate (k - msg.length - 2 * hLen - 2) 0 ++ [1] ++ msg)
        (mgf1 hash seed (k - hLen - 1))).take hLen
        = xorBytes seed (mgf1 hash (xorBytes (hash label ++
        List.replicate (k - msg.length - 2 * hLen - 2) 0 ++ [1] ++ msg)
        (mgf1 hash seed (k - hLen - 1))) hLen) := by
      have hi := List.take_left (xorBytes seed (mgf1 hash (xorBytes (hash label ++
        List.replicate (k - msg.length - 2 * hLen - 2) 0 ++ [1] ++ msg)
        (mgf1 hash seed (k - hLen - 1))) hLen)) (xorBytes (hash label ++
        List.replicate (k - msg.length - 2 * hLen - 2) 0 ++ [1] ++ msg)
        (mgf1 hash seed (k - hLen - 1)))
      rwa [hms_len] at hi
    have hdrop_mdb : (xorBytes seed (mgf1 hash (xorBytes (hash label ++
        List.replicate (k - msg.length - 2 * hLen - 2) 0 ++ [1] ++ msg)
        (mgf1 hash seed (k - hLen - 1))) hLen) ++ xorBytes (hash label ++
        List.replicate (k - msg.length - 2 * hLen - 2) 0 ++ [1] ++ msg)
        (mgf1 hash seed (k - hLen - 1))).drop hLen
        = xorBytes (hash label ++
        List.replicate (k - msg.length - 2 * hLen - 2) 0 ++ [1] ++ msg)
        (mgf1 hash seed (k - hLen - 1)) := by
      have hi := List.drop_left (xorBytes seed (mgf1 hash (xorBytes (hash label ++
        List.replicate (k - msg.length - 2 * hLen - 2) 0 ++ [1] ++ msg)
        (mgf1 hash seed (k - hLen - 1))) hLen)) (xorBytes (hash label ++
        List.replicate (k - msg.length - 2 * hLen - 2) 0 ++ [1] ++ msg)
        (mgf1 hash seed (k - hLen - 1)))
      rwa [hms_len] at hi
    have hlhash_take : (hash label ++ List.replicate (k - msg.length - 2 * hLen - 2)
        0 ++ [1] ++ msg).take hLen = hash label := by
      rw [List.append_assoc, List.append_assoc]
      have hi := List.take_left (hash label)
        (List.replicate (k - msg.length - 2 * hLen - 2) 0 ++ ([1] ++ msg))
      rwa [hlH] at hi
    have hlhash_drop : (hash label ++ List.replicate (k - msg.length - 2 * hLen - 2)
        0 ++ [1] ++ msg).drop hLen
        = List.replicate (k - msg.length - 2 * hLen - 2) 0 ++ 1 :: msg := by
      rw [List.append_assoc, List.append_assoc]
      have hi := List.drop_left (hash label)
        (List.replicate (k - msg.length - 2 * hLen - 2) 0 ++ ([1] ++ msg))
      rw [hlH] at hi
      rw [hi]
      rfl
    simp only [decryptOAEP, hbl]
    rw [if_neg (by rw [hct_len]; omega)]
    rw [if_neg (by rw [hos_ct]; omega)]
    rw [hos_ct, Hrsa _ hm_lt, hEM_back]
    simp only [List.cons_append]
    rw [List.drop_one]
    rw [List.tail_cons, htake_ms]
    rw [show (1 : Nat) + hLen = hLen + 1 from Nat.add_comm 1 hLen]
    rw [List.drop_succ_cons, hdrop_mdb]
    rw [xorBytes_cancel seed _ (by rw [Hseed, hsm_len])]
    rw [xorBytes_cancel (hash label ++ List.replicate (k - msg.length - 2 * hLen - 2)
      0 ++ [1] ++ msg) _ (by rw [hdb_len, hdbm_len])]
    rw [if_neg (by simp)]
    rw [hlhash_take, hlhash_drop]
    by_cases hl2 : hash label2 = hash label
    · rw [if_pos hl2]
      rw [if_neg (by rw [hl2]; simp)]
      simp only [findSep_replicate]
      rw [drop_replicate_sep]
    · rw [if_neg hl2]
      rw [if_pos (fun hcon => hl2 hcon.symm)]

/-- The bytes of `i2osp` are bytes. -/
theorem i2osp_mem_lt (k : Nat) : ∀ x : Nat, ∀ b ∈ i2osp x k, b < 256 := by
  induction k with
  | zero => intro x b hb; simp [i2osp] at hb
  | succ k ih =>
    intro x b hb
    rw [i2osp] at hb
    rcases List.mem_append.mp hb with hb | hb
    · exact ih (x / 256) b hb
    · have hb2 : b = x % 256 := by simpa using hb
      subst hb2
      exact Nat.mod_lt _ (by norm_num)

/-- Fermat-style exponent reduction modulo a prime:
`x ^ t ≡ x (mod p)` when `p − 1` divides `t − 1`. -/
theorem pow_modEq_self_prime (p t x : Nat) (hp : p.Prime) (ht : 1 ≤ t)
    (hdvd : (p - 1) ∣ t - 1) : x ^ t ≡ x [MOD p] := by
  by_cases hx : p ∣ x
  · have h0 : x ≡ 0 [MOD p] := (Nat.modEq_zero_iff_dvd).mpr hx
    calc x ^ t ≡ 0 ^ t [MOD p] := h0.pow t
      _ = 0 := by rw [zero_pow (by omega : t ≠ 0)]
      _ ≡ x [MOD p] := h0.symm
  · obtain ⟨c, hc⟩ := hdvd
    have ht1 : t = (p - 1) * c + 1 := (Nat.sub_eq_iff_eq_add ht).mp hc
    have hcop : x.Coprime p := ((hp.coprime_iff_not_dvd).mpr hx).symm
    have heuler := Nat.ModEq.pow_totient hcop
    rw [Nat.totient_prime hp] at heuler
    calc x ^ t = x ^ ((p - 1) * c) * x := by rw [ht1, pow_succ]
      _ = (x ^ (p - 1)) ^ c * x := by rw [pow_mul]
      _ ≡ 1 ^ c * x [MOD p] := (heuler.pow c).mul_right x
      _ = x := by rw [one_pow, one_mul]

/-- RSA inversion for a two-prime modulus whose exponents satisfy the
CRT congruences. -/
theorem rsa_inversion (p q e d : Nat) (hp : p.Prime) (hq : q.Prime) (hpq : p ≠ q)
    (hed : 1 ≤ e * d) (hdp : (p - 1) ∣ e * d - 1) (hdq : (q - 1) ∣ e * d - 1) :
    ∀ x, x < p * q → powMod (powMod x e (p * q)) d (p * q) = x := by
  intro x hx
  have hn0 : 0 < p * q := Nat.mul_pos hp.pos hq.pos
  rw [powMod_eq _ _ _ hn0, powMod_eq _ _ _ hn0, ← Nat.pow_mod, ← pow_mul]
  have hmp : x ^ (e * d) ≡ x [MOD p] := pow_modEq_self_prime p (e * d) x hp hed hdp
  have hmq : x ^ (e * d) ≡ x [MOD q] := pow_modEq_self_prime q (e * d) x hq hed hdq
  have hcop : Nat.Coprime p q := (Nat.coprime_primes hp hq).mpr hpq
  have hmod : x ^ (e * d) ≡ x [MOD p * q] :=
    (Nat.modEq_and_modEq_iff_modEq_mul hcop).mp ⟨hmp, hmq⟩
  calc x ^ (e * d) % (p * q) = x % (p * q) := hmod
    _ = x := Nat.mod_eq_of_lt hx

/-- C4 — Encryption round trip with label binding: for a message with
byte content, a hash of fixed output length, a fresh random seed, and
an RSA key `(n, e, d)` of byte size `k` satisfying the inversion
property, `Message.Encrypt` succeeds and `EncryptedMessage.Decrypt`
returns the original message; decrypting the same ciphertext under a
message id whose hash differs (in particular any different id, for a
collision-free hash) fails. -/
theorem claim_C4_encrypt_roundtrip (hash : List Nat → List Nat) (hLen k n e d : Nat)
    (seed : List Nat) (m : Message) (id2 : List Nat)
    (Hh : ∀ x, (hash x).length = hLen)
    (Hh256 : ∀ x, ∀ b ∈ hash x, b < 256)
    (HhLen : 0 < hLen)
    (Hseed : seed.length = hLen)
    (Hs256 : ∀ b ∈ seed, b < 256)
    (Hc256 : ∀ b ∈ m.content, b < 256)
    (Hlen : m.content.length + 2 * hLen + 2 ≤ k)
    (Hnlo : 2 ^ (8 * (k - 1)) ≤ n)
    (Hnhi : n < 2 ^ (8 * k))
    (Hrsa : ∀ x, x < n → powMod (powMod x e n) d n = x)
    (Hmm : hash id2 ≠ hash m.id) :
    ∃ em, Message.encrypt hash hLen seed n e m = some em ∧
      EncryptedMessage.decrypt hash hLen n d em = some m ∧
      EncryptedMessage.decrypt hash hLen n d { em with id := id2 } = none := by
  obtain ⟨ct, henc, hdec⟩ := oaep_eval hash hLen k n e d seed m.id m.content
    Hh Hh256 HhLen Hseed Hs256 Hc256 Hlen Hnlo Hnhi Hrsa
  have hct256 : ∀ b ∈ ct, b < 256 := by
    have henc2 := henc
    simp only [encryptOAEP] at henc2
    split at henc2
    · cases henc2
    · cases henc2
      exact i2osp_mem_lt _ _
  refine ⟨{ id := m.id, senderGUID := m.senderGUID, receiverGUID := m.receiverGUID,
            ty := m.ty, scope := m.scope, content := b64encode ct,
            timestamp := m.timestamp }, ?_, ?_, ?_⟩
  · simp only [Message.encrypt, henc]
  · simp only [EncryptedMessage.decrypt, b64decode_encode ct hct256]
    rw [hdec m.id, if_pos rfl]
  · simp only [EncryptedMessage.decrypt, b64decode_encode ct hct256]
    rw [hdec id2, if_neg Hmm]

/-- Witness for C4 on a concrete key `(n, e, d) = (65537·65539, 5,
429509837)`, hash output length 1, content `[104]`, id `[1]` and
mismatched id `[2]`. -/
theorem claim_C4_witness :
    ∃ em, Message.encrypt wHash 1 [42] wN wE
        { id := [1], senderGUID := "peer-a", receiverGUID := "me", ty := "text",
          scope := "private", content := [104], timestamp := 0 } = some em ∧
      EncryptedMessage.decrypt wHash 1 wN wD em = some
        { id := [1], senderGUID := "peer-a", receiverGUID := "me", ty := "text",
          scope := "private", content := [104], timestamp := 0 } ∧
      EncryptedMessage.decrypt wHash 1 wN wD { em with id := [2] } = none := by
  exact claim_C4_encrypt_roundtrip wHash 1 5 wN wE wD [42]
    { id := [1], senderGUID := "peer-a", receiverGUID := "me", ty := "text",
      scope := "private", content := [104], timestamp := 0 }
    [2]
    (by intro x; by_cases h : x = [1] <;> simp [wHash, h])
    (by intro x b hb; by_cases h : x = [1] <;> simp [wHash, h] at hb <;> omega)
    (by decide) rfl (by decide) (by decide) (by decide) (by decide) (by decide)
    (by
      have hwn : wN = 65537 * 65539 := by norm_num [wN]
      rw [hwn]
      exact rsa_inversion 65537 65539 wE wD (by norm_num) (by norm_num)
        (by norm_num) (by decide) (by decide) (by decide))
    (by decide)

end CyberChat
